import Mathlib

/-!
# engine-api: wire shape of the container configuration and option types

A shallow embedding of the Go declarations of `types/container/config.go`,
`types/configs.go`, `types/errors.go` and `types/client.go`, together with the
part of `encoding/json` that turns their struct tags into JSON members
(`typeFields`, `isEmptyValue`, the struct encoder).
-/

namespace EngineApi

set_option maxRecDepth 1000000

/-! ## JSON documents -/

/-- JSON documents as the encoder emits them; object members keep their emission order. -/
inductive Json where
  | null
  | bool (b : Bool)
  | num (n : Int)
  | str (s : String)
  | arr (xs : List Json)
  | obj (members : List (String × Json))

namespace Json

/-- First member stored under key `k` in a member list. -/
def lookup (k : String) : List (String × Json) → Option Json
  | [] => none
  | (k', v) :: rest => if k' = k then some v else lookup k rest

/-- Value of member `k` of a JSON object (`none` when there is no such member). -/
def get? : Json → String → Option Json
  | obj ms, k => lookup k ms
  | _, _ => none

/-- Keys of a JSON object, in emission order. -/
def keys : Json → List String
  | obj ms => ms.map Prod.fst
  | _ => []

end Json

/-! ## Struct tags (encoding/json `parseTag`, `tagOptions.Contains`, `isValidTag`) -/

/-- Go `strings.Cut(s, ",")`: the text before the first comma and the text after it. -/
def cutComma : List Char → List Char × List Char
  | [] => ([], [])
  | c :: cs => if c = ',' then ([], cs) else ((c :: (cutComma cs).1), (cutComma cs).2)

/-- Go `strings.Split(s, ",")`. -/
def splitComma : List Char → List (List Char)
  | [] => [[]]
  | c :: cs =>
    if c = ',' then [] :: splitComma cs
    else match splitComma cs with
      | [] => [[c]]
      | p :: ps => (c :: p) :: ps

/-- The pieces visited by the loop of `tagOptions.Contains`: the comma-separated
pieces, without the empty piece that follows a final comma. -/
def optionPieces (o : List Char) : List (List Char) :=
  let ps := splitComma o
  if ps.getLast? = some [] then ps.dropLast else ps

/-- Go `tagOptions.Contains`. -/
def tagOptionsContains (o : List Char) (optionName : String) : Bool :=
  if o.isEmpty then false else (optionPieces o).contains optionName.data

/-- Punctuation that `isValidTag` admits in a key. -/
def tagPunctuation : List Char :=
  ['!', '#', '$', '%', '&', '(', ')', '*', '+', '-', '.', '/', ':', ';', '<', '=', '>',
   '?', '@', '[', ']', '^', '_', '\x7b', '|', '\x7d', '~', ' ']

/-- Go `isValidTag`, on the ASCII letters and digits the tags of this package use. -/
def isValidTag (s : List Char) : Bool :=
  !s.isEmpty && s.all fun c => tagPunctuation.contains c || c.isAlphanum

/-- Go `reflect.Kind`, as far as the encoder distinguishes it; `unknown` stands for a named
type whose declaration is outside these sources and whose field carries no tag option. -/
inductive Kind where
  | bool | int | float | string | slice | map | ptr | struct | iface | func
  | unknown
  deriving DecidableEq, Repr

/-- One field of a struct declaration: Go name, kind, declared type as written, and the
value of the `json` key of its struct tag (`""` when the field has no such tag). -/
structure FieldDecl where
  name : String
  kind : Kind
  goType : String
  tag : String
  deriving DecidableEq, Repr

/-- The `field` record that encoding/json computes for a struct field. -/
structure EncField where
  name : String
  index : Nat
  tagged : Bool
  omitEmpty : Bool
  quoted : Bool
  deriving DecidableEq, Repr

/-- Key part of a tag: the text before the first comma when it is a valid key. -/
def tagKey (tag : String) : String :=
  let n := (cutComma tag.data).1
  if isValidTag n then String.mk n else ""

/-- Effective wire key of a field: the tag's key, or the Go field name when the tag has none. -/
def FieldDecl.wireKey (d : FieldDecl) : String :=
  if tagKey d.tag = "" then d.name else tagKey d.tag

/-- Kinds for which the `string` tag option takes effect. -/
def Kind.quotable : Kind → Bool
  | .bool | .int | .float | .string => true
  | _ => false

/-- The per-field step of `typeFields`: `none` for a field tagged `-`. -/
def encFieldOf (i : Nat) (d : FieldDecl) : Option EncField :=
  if d.tag = "-" then none
  else
    let opts := (cutComma d.tag.data).2
    some { name := d.wireKey
           index := i
           tagged := tagKey d.tag != ""
           omitEmpty := tagOptionsContains opts "omitempty"
           quoted := tagOptionsContains opts "string" && d.kind.quotable }

/-- Candidate fields of a struct, in declaration order. -/
def rawFieldsFrom : Nat → List FieldDecl → List EncField
  | _, [] => []
  | i, d :: ds =>
    match encFieldOf i d with
    | some f => f :: rawFieldsFrom (i + 1) ds
    | none => rawFieldsFrom (i + 1) ds

/-- Go `dominantField` for fields of one struct level: a name used once wins; among
several fields of one name the only tagged one wins; otherwise all are dropped. -/
def dominant (all : List EncField) (f : EncField) : Bool :=
  match all.filter (fun g => g.name = f.name) with
  | [_] => true
  | same => f.tagged && (same.filter (fun g => g.tagged)).length = 1

/-- Go `typeFields` for a struct without embedded fields: the fields the encoder emits,
in declaration order. -/
def typeFields (decls : List FieldDecl) : List EncField :=
  (rawFieldsFrom 0 decls).filter (dominant (rawFieldsFrom 0 decls))

/-! ## Values -/

/-- A field value as the struct encoder sees it: whether `isEmptyValue` holds, and its encoding. -/
structure FieldVal where
  empty : Bool
  json : Json

/-- One step of the struct encoder's loop: the member written for field `f`, if any. -/
def emitField (vals : List FieldVal) (f : EncField) : Option (String × Json) :=
  match vals.get? f.index with
  | some v => if f.omitEmpty && v.empty then none else some (f.name, v.json)
  | none => none

/-- The struct encoder: for each field of `typeFields`, in order, skip it when it is
`omitempty` and empty, else emit its key and encoding. None of the structs encoded in
this development has a field with an effective `string` option. -/
def marshalStruct (decls : List FieldDecl) (vals : List FieldVal) : Json :=
  Json.obj ((typeFields decls).filterMap (emitField vals))

/-- Go values the encoder handles: `isEmptyValue` and the encoding. -/
class GoJson (α : Type) where
  isEmptyValue : α → Bool
  encode : α → Json

/-- Field value of a Go value. -/
def fieldVal {α : Type} [GoJson α] (a : α) : FieldVal :=
  { empty := GoJson.isEmptyValue a, json := GoJson.encode a }

/-- A Go slice: `nil`, or a (possibly empty) sequence of elements. -/
inductive GoSlice (α : Type) where
  | nil
  | of (elems : List α)

/-- Go `len` of a slice. -/
def GoSlice.len {α : Type} : GoSlice α → Nat
  | .nil => 0
  | .of xs => xs.length

/-- A Go map with string-kind keys: `nil`, or its entries (one per key). -/
inductive GoMap (α : Type) where
  | nil
  | of (entries : List (String × α))

/-- Go `len` of a map. -/
def GoMap.len {α : Type} : GoMap α → Nat
  | .nil => 0
  | .of es => es.length

/-- Insert an entry before the first entry with a larger key. -/
def insertByKey {α : Type} (e : String × α) : List (String × α) → List (String × α)
  | [] => [e]
  | x :: xs => if e.1 < x.1 then e :: x :: xs else x :: insertByKey e xs

/-- Entries in increasing key order, as the map encoder emits them. -/
def sortByKey {α : Type} : List (String × α) → List (String × α)
  | [] => []
  | x :: xs => insertByKey x (sortByKey xs)

instance : GoJson Bool where
  isEmptyValue b := !b
  encode b := Json.bool b

instance : GoJson Int where
  isEmptyValue n := n == 0
  encode n := Json.num n

instance : GoJson String where
  isEmptyValue s := s.length == 0
  encode s := Json.str s

/-- Go `struct\x7b\x7d`. -/
instance : GoJson Unit where
  isEmptyValue _ := false
  encode _ := Json.obj []

/-- Go pointers: `none` is the nil pointer. -/
instance {α : Type} [GoJson α] : GoJson (Option α) where
  isEmptyValue p := p.isNone
  encode
    | none => Json.null
    | some a => GoJson.encode a

instance {α : Type} [GoJson α] : GoJson (GoSlice α) where
  isEmptyValue s := s.len == 0
  encode
    | .nil => Json.null
    | .of xs => Json.arr (xs.map GoJson.encode)

instance {α : Type} [GoJson α] : GoJson (GoMap α) where
  isEmptyValue m := m.len == 0
  encode
    | .nil => Json.null
    | .of es => Json.obj ((sortByKey es).map fun e => (e.1, GoJson.encode e.2))

/-! ## types/container/config.go -/

/-- Go `time.Duration`: a signed count of nanoseconds, encoded as that integer. -/
abbrev Duration := Int

/-- Modelled from the spec: `strslice.StrSlice` (package `types/strslice`, not part of the
sources at hand) is an ordered argument list that is written in list form; it is taken
as a Go slice of strings. -/
abbrev StrSlice := GoSlice String

/-- HealthConfig holds configuration settings for the HEALTHCHECK feature. -/
structure HealthConfig where
  Test : GoSlice String
  Interval : Duration
  Timeout : Duration
  Retries : Int

/-- Field declarations of `HealthConfig`. -/
def HealthConfig.decls : List FieldDecl :=
  [ ⟨"Test", .slice, "[]string", ",omitempty"⟩,
    ⟨"Interval", .int, "time.Duration", ",omitempty"⟩,
    ⟨"Timeout", .int, "time.Duration", ",omitempty"⟩,
    ⟨"Retries", .int, "int", ",omitempty"⟩ ]

/-- Field values of a `HealthConfig`, in declaration order. -/
def HealthConfig.vals (h : HealthConfig) : List FieldVal :=
  [fieldVal h.Test, fieldVal h.Interval, fieldVal h.Timeout, fieldVal h.Retries]

instance : GoJson HealthConfig where
  isEmptyValue _ := false
  encode h := marshalStruct HealthConfig.decls h.vals

/-- Config contains the configuration for a container. -/
structure Config where
  Hostname : String
  Domainname : String
  User : String
  AttachStdin : Bool
  AttachStdout : Bool
  AttachStderr : Bool
  ExposedPorts : GoMap Unit
  Tty : Bool
  OpenStdin : Bool
  StdinOnce : Bool
  Env : GoSlice String
  Cmd : StrSlice
  Healthcheck : Option HealthConfig
  ArgsEscaped : Bool
  Image : String
  Volumes : GoMap Unit
  WorkingDir : String
  Entrypoint : StrSlice
  NetworkDisabled : Bool
  MacAddress : String
  OnBuild : GoSlice String
  Labels : GoMap String
  StopSignal : String
  StopTimeout : Option Int
  Shell : StrSlice

/-- Field declarations of `Config`. -/
def Config.decls : List FieldDecl :=
  [ ⟨"Hostname", .string, "string", ""⟩,
    ⟨"Domainname", .string, "string", ""⟩,
    ⟨"User", .string, "string", ""⟩,
    ⟨"AttachStdin", .bool, "bool", ""⟩,
    ⟨"AttachStdout", .bool, "bool", ""⟩,
    ⟨"AttachStderr", .bool, "bool", ""⟩,
    ⟨"ExposedPorts", .map, "map[nat.Port]struct\x7b\x7d", ",omitempty"⟩,
    ⟨"Tty", .bool, "bool", ""⟩,
    ⟨"OpenStdin", .bool, "bool", ""⟩,
    ⟨"StdinOnce", .bool, "bool", ""⟩,
    ⟨"Env", .slice, "[]string", ""⟩,
    ⟨"Cmd", .slice, "strslice.StrSlice", ""⟩,
    ⟨"Healthcheck", .ptr, "*HealthConfig", ",omitempty"⟩,
    ⟨"ArgsEscaped", .bool, "bool", ",omitempty"⟩,
    ⟨"Image", .string, "string", ""⟩,
    ⟨"Volumes", .map, "map[string]struct\x7b\x7d", ""⟩,
    ⟨"WorkingDir", .string, "string", ""⟩,
    ⟨"Entrypoint", .slice, "strslice.StrSlice", ""⟩,
    ⟨"NetworkDisabled", .bool, "bool", ",omitempty"⟩,
    ⟨"MacAddress", .string, "string", ",omitempty"⟩,
    ⟨"OnBuild", .slice, "[]string", ""⟩,
    ⟨"Labels", .map, "map[string]string", ""⟩,
    ⟨"StopSignal", .string, "string", ",omitempty"⟩,
    ⟨"StopTimeout", .ptr, "*int", ",omitempty"⟩,
    ⟨"Shell", .slice, "strslice.StrSlice", ",omitempty"⟩ ]

/-- Field values of a `Config`, in declaration order. -/
def Config.vals (c : Config) : List FieldVal :=
  [ fieldVal c.Hostname, fieldVal c.Domainname, fieldVal c.User,
    fieldVal c.AttachStdin, fieldVal c.AttachStdout, fieldVal c.AttachStderr,
    fieldVal c.ExposedPorts, fieldVal c.Tty, fieldVal c.OpenStdin, fieldVal c.StdinOnce,
    fieldVal c.Env, fieldVal c.Cmd, fieldVal c.Healthcheck, fieldVal c.ArgsEscaped,
    fieldVal c.Image, fieldVal c.Volumes, fieldVal c.WorkingDir, fieldVal c.Entrypoint,
    fieldVal c.NetworkDisabled, fieldVal c.MacAddress, fieldVal c.OnBuild,
    fieldVal c.Labels, fieldVal c.StopSignal, fieldVal c.StopTimeout, fieldVal c.Shell ]

instance : GoJson Config where
  isEmptyValue _ := false
  encode c := marshalStruct Config.decls c.vals

/-- The zero value of `Config`. -/
def Config.zero : Config :=
  { Hostname := "", Domainname := "", User := "", AttachStdin := false, AttachStdout := false,
    AttachStderr := false, ExposedPorts := .nil, Tty := false, OpenStdin := false,
    StdinOnce := false, Env := .nil, Cmd := .nil, Healthcheck := none, ArgsEscaped := false,
    Image := "", Volumes := .nil, WorkingDir := "", Entrypoint := .nil,
    NetworkDisabled := false, MacAddress := "", OnBuild := .nil, Labels := .nil,
    StopSignal := "", StopTimeout := none, Shell := .nil }

/-! ## Struct declarations of `types/client.go` -/

/-- Field declarations of `CheckpointCreateOptions`. -/
def CheckpointCreateOptions.decls : List FieldDecl :=
  [⟨"CheckpointID", .string, "string", ""⟩,
   ⟨"Exit", .bool, "bool", ""⟩]

/-- Field declarations of `ContainerAttachOptions`. -/
def ContainerAttachOptions.decls : List FieldDecl :=
  [⟨"ID", .string, "string", "id"⟩,
   ⟨"Logs", .bool, "bool", "logs"⟩,
   ⟨"Stream", .bool, "bool", "stream"⟩,
   ⟨"Stdin", .bool, "bool", "stdin"⟩,
   ⟨"Stdout", .bool, "bool", "stdout"⟩,
   ⟨"Stderr", .bool, "bool", "stderr"⟩,
   ⟨"DetachKeys", .string, "string", "detachKeys"⟩]

/-- Field declarations of `ContainerCommitOptions`. -/
def ContainerCommitOptions.decls : List FieldDecl :=
  [⟨"Reference", .string, "string", ""⟩,
   ⟨"Comment", .string, "string", "comment"⟩,
   ⟨"Author", .string, "string", "author"⟩,
   ⟨"Changes", .slice, "[]string", "changes"⟩,
   ⟨"Pause", .bool, "bool", ""⟩,
   ⟨"Config", .ptr, "*container.Config", ""⟩]

/-- Field declarations of `ContainerExecInspect`. -/
def ContainerExecInspect.decls : List FieldDecl :=
  [⟨"ExecID", .string, "string", ""⟩,
   ⟨"ContainerID", .string, "string", ""⟩,
   ⟨"Running", .bool, "bool", ""⟩,
   ⟨"ExitCode", .int, "int", ""⟩]

/-- Field declarations of `ContainerListOptions`. -/
def ContainerListOptions.decls : List FieldDecl :=
  [⟨"All", .bool, "bool", "all"⟩,
   ⟨"Size", .bool, "bool", "size"⟩,
   ⟨"Since", .string, "string", "since"⟩,
   ⟨"Before", .string, "string", "before"⟩,
   ⟨"Limit", .int, "int", "limit"⟩,
   ⟨"Filter", .map, "filters.Args", "filters,string"⟩]

/-- Field declarations of `ContainerStatsOptions`. -/
def ContainerStatsOptions.decls : List FieldDecl :=
  [⟨"ID", .string, "string", "id"⟩,
   ⟨"Stream", .string, "string", "stream"⟩]

/-- Field declarations of `ContainerLogsOptions`. -/
def ContainerLogsOptions.decls : List FieldDecl :=
  [⟨"ID", .string, "string", "id"⟩,
   ⟨"ShowStdout", .bool, "bool", "stdout"⟩,
   ⟨"ShowStderr", .bool, "bool", "stdin"⟩,
   ⟨"Since", .string, "string", "since"⟩,
   ⟨"Timestamps", .bool, "bool", "timestamps"⟩,
   ⟨"Follow", .bool, "bool", "follow"⟩,
   ⟨"Tail", .string, "string", "tail"⟩,
   ⟨"Details", .bool, "bool", "details"⟩]

/-- Field declarations of `ContainerExportOptions`. -/
def ContainerExportOptions.decls : List FieldDecl :=
  [⟨"ID", .string, "string", "id"⟩]

/-- Field declarations of `ContainerUpdateOptions`. -/
def ContainerUpdateOptions.decls : List FieldDecl :=
  [⟨"ID", .string, "string", "id"⟩]

/-- Field declarations of `ContainerCreateOptions`. -/
def ContainerCreateOptions.decls : List FieldDecl :=
  [⟨"Name", .string, "string", "name"⟩]

/-- Field declarations of `ContainerRemoveOptions`. -/
def ContainerRemoveOptions.decls : List FieldDecl :=
  [⟨"ID", .string, "string", "id"⟩,
   ⟨"RemoveVolumes", .bool, "bool", "v"⟩,
   ⟨"RemoveLinks", .bool, "bool", "link"⟩,
   ⟨"Force", .bool, "bool", "force"⟩]

/-- Field declarations of `ContainerStartOptions`. -/
def ContainerStartOptions.decls : List FieldDecl :=
  [⟨"ID", .string, "string", "id"⟩,
   ⟨"CheckpointID", .string, "string", ""⟩]

/-- Field declarations of `ContainerStopOptions`. -/
def ContainerStopOptions.decls : List FieldDecl :=
  [⟨"ID", .string, "string", "id"⟩,
   ⟨"DetachKeys", .string, "string", "detachKeys"⟩]

/-- Field declarations of `ContainerKillOptions`. -/
def ContainerKillOptions.decls : List FieldDecl :=
  [⟨"ID", .string, "string", "id"⟩,
   ⟨"Signal", .string, "string", "signal"⟩]

/-- Field declarations of `ContainerRestartOptions`. -/
def ContainerRestartOptions.decls : List FieldDecl :=
  [⟨"ID", .string, "string", "id"⟩,
   ⟨"Timeout", .int, "int", "t"⟩]

/-- Field declarations of `ContainerPauseOptions`. -/
def ContainerPauseOptions.decls : List FieldDecl :=
  [⟨"ID", .string, "string", "id"⟩]

/-- Field declarations of `ContainerUnpauseOptions`. -/
def ContainerUnpauseOptions.decls : List FieldDecl :=
  [⟨"ID", .string, "string", "id"⟩]

/-- Field declarations of `ContainerTopOptions`. -/
def ContainerTopOptions.decls : List FieldDecl :=
  [⟨"ID", .string, "string", "id"⟩,
   ⟨"PsArgs", .string, "string", "ps_args"⟩]

/-- Field declarations of `ContainerRenameOptions`. -/
def ContainerRenameOptions.decls : List FieldDecl :=
  [⟨"ID", .string, "string", "id"⟩,
   ⟨"Name", .string, "string", "name"⟩]

/-- Field declarations of `CopyToContainerOptions`. -/
def CopyToContainerOptions.decls : List FieldDecl :=
  [⟨"AllowOverwriteDirWithFile", .bool, "bool", ""⟩]

/-- Field declarations of `EventsOptions`. -/
def EventsOptions.decls : List FieldDecl :=
  [⟨"Since", .string, "string", "since"⟩,
   ⟨"Until", .string, "string", "until"⟩,
   ⟨"Filters", .map, "filters.Args", "filters"⟩]

/-- Field declarations of `NetworkListOptions`. -/
def NetworkListOptions.decls : List FieldDecl :=
  [⟨"Filters", .map, "filters.Args", "filters"⟩]

/-- Field declarations of `NetworkGetOptions`. -/
def NetworkGetOptions.decls : List FieldDecl :=
  [⟨"ID", .string, "string", "id"⟩]

/-- Field declarations of `HijackedResponse`. -/
def HijackedResponse.decls : List FieldDecl :=
  [⟨"Conn", .iface, "net.Conn", ""⟩,
   ⟨"Reader", .ptr, "*bufio.Reader", ""⟩]

/-- Field declarations of `ImageBuildOptions`. -/
def ImageBuildOptions.decls : List FieldDecl :=
  [⟨"Dockerfile", .string, "string", "dockerfile"⟩,
   ⟨"Tags", .slice, "[]string", "t"⟩,
   ⟨"SuppressOutput", .bool, "bool", "q"⟩,
   ⟨"RemoteContext", .string, "string", "remote"⟩,
   ⟨"NoCache", .bool, "bool", "nocache"⟩,
   ⟨"Remove", .bool, "bool", "rm"⟩,
   ⟨"ForceRemove", .bool, "bool", "forcerm"⟩,
   ⟨"PullParent", .bool, "bool", "pull"⟩,
   ⟨"Isolation", .unknown, "container.Isolation", ""⟩,
   ⟨"CPUSetCPUs", .string, "string", "cpusetcpus"⟩,
   ⟨"CPUSetMems", .string, "string", "cpusetmems"⟩,
   ⟨"CPUShares", .int, "int64", "cpushares"⟩,
   ⟨"CPUQuota", .int, "int64", "cpuquota"⟩,
   ⟨"CPUPeriod", .int, "int64", "cpuperiod"⟩,
   ⟨"Memory", .int, "int64", "memory"⟩,
   ⟨"MemorySwap", .int, "int64", "memoryswap"⟩,
   ⟨"CgroupParent", .string, "string", ""⟩,
   ⟨"ShmSize", .int, "int64", "shmsize"⟩,
   ⟨"Ulimits", .slice, "[]*units.Ulimit", ""⟩,
   ⟨"BuildArgs", .map, "map[string]string", "buildargs"⟩,
   ⟨"AuthConfigs", .map, "map[string]AuthConfig", ""⟩,
   ⟨"Context", .iface, "io.Reader", ""⟩,
   ⟨"Labels", .map, "map[string]string", "labels"⟩]

/-- Field declarations of `ImageBuildResponse`. -/
def ImageBuildResponse.decls : List FieldDecl :=
  [⟨"Body", .iface, "io.ReadCloser", ""⟩,
   ⟨"OSType", .string, "string", ""⟩]

/-- Field declarations of `ImageCreateOptions`. -/
def ImageCreateOptions.decls : List FieldDecl :=
  [⟨"FromImage", .string, "string", "fromImage"⟩,
   ⟨"FromSrc", .string, "string", "fromSrc"⟩,
   ⟨"Repo", .string, "string", "repo"⟩,
   ⟨"Tag", .string, "string", "tag"⟩,
   ⟨"RegistryAuth", .string, "string", "X-Registry-Auth"⟩]

/-- Field declarations of `ImageImportSource`. -/
def ImageImportSource.decls : List FieldDecl :=
  [⟨"Source", .iface, "io.Reader", ""⟩,
   ⟨"SourceName", .string, "string", ""⟩]

/-- Field declarations of `ImageImportOptions`. -/
def ImageImportOptions.decls : List FieldDecl :=
  [⟨"Tag", .string, "string", ""⟩,
   ⟨"Message", .string, "string", ""⟩,
   ⟨"Changes", .slice, "[]string", ""⟩]

/-- Field declarations of `ImageListOptions`. -/
def ImageListOptions.decls : List FieldDecl :=
  [⟨"MatchName", .string, "string", ""⟩,
   ⟨"All", .bool, "bool", "all"⟩,
   ⟨"Filters", .map, "filters.Args", "filters"⟩]

/-- Field declarations of `ImageHistoryOptions`. -/
def ImageHistoryOptions.decls : List FieldDecl :=
  [⟨"Name", .string, "string", "name"⟩]

/-- Field declarations of `ImageTagOptions`. -/
def ImageTagOptions.decls : List FieldDecl :=
  [⟨"Name", .string, "string", "name"⟩,
   ⟨"Repo", .string, "string", "repo"⟩,
   ⟨"Tag", .string, "string", "tag"⟩]

/-- Field declarations of `ImageLoadResponse`. -/
def ImageLoadResponse.decls : List FieldDecl :=
  [⟨"Body", .iface, "io.ReadCloser", ""⟩,
   ⟨"JSON", .bool, "bool", ""⟩]

/-- Field declarations of `ImagePullOptions`. -/
def ImagePullOptions.decls : List FieldDecl :=
  [⟨"All", .bool, "bool", ""⟩,
   ⟨"RegistryAuth", .string, "string", ""⟩,
   ⟨"PrivilegeFunc", .func, "RequestPrivilegeFunc", ""⟩]

/-- Field declarations of `ImagePushOptions`, a defined type over `ImagePullOptions`. -/
def ImagePushOptions.decls : List FieldDecl := ImagePullOptions.decls

/-- Field declarations of `ImageRemoveOptions`. -/
def ImageRemoveOptions.decls : List FieldDecl :=
  [⟨"Name", .string, "string", "name"⟩,
   ⟨"Force", .bool, "bool", "force"⟩,
   ⟨"PruneChildren", .bool, "bool", "noprune"⟩]

/-- Field declarations of `ImageSearchOptions`. -/
def ImageSearchOptions.decls : List FieldDecl :=
  [⟨"RegistryAuth", .string, "string", "X-Registry-Auth"⟩,
   ⟨"Filters", .map, "filters.Args", "filters"⟩,
   ⟨"Limit", .int, "int", "limit"⟩,
   ⟨"PrivilegeFunc", .func, "RequestPrivilegeFunc", ""⟩]

/-- Field declarations of `ImageGetOptions`. -/
def ImageGetOptions.decls : List FieldDecl :=
  [⟨"Name", .string, "string", "name"⟩]

/-- Field declarations of `ResizeOptions`. -/
def ResizeOptions.decls : List FieldDecl :=
  [⟨"ID", .string, "string", "id"⟩,
   ⟨"Height", .int, "int", "h"⟩,
   ⟨"Width", .int, "int", "w"⟩]

/-- Field declarations of `VersionResponse`. -/
def VersionResponse.decls : List FieldDecl :=
  [⟨"Client", .ptr, "*Version", ""⟩,
   ⟨"Server", .ptr, "*Version", ""⟩]

/-- Field declarations of `NodeListOptions`. -/
def NodeListOptions.decls : List FieldDecl :=
  [⟨"Filter", .map, "filters.Args", "filters,string"⟩]

/-- Field declarations of `NodeUpdateOptions`. -/
def NodeUpdateOptions.decls : List FieldDecl :=
  [⟨"ID", .string, "string", "id"⟩,
   ⟨"Body", .ptr, "*swarm.NodeSpec", ""⟩]

/-- Field declarations of `NodeRemoveOptions`. -/
def NodeRemoveOptions.decls : List FieldDecl :=
  [⟨"ID", .string, "string", "id"⟩]

/-- Field declarations of `ServiceCreateOptions`. -/
def ServiceCreateOptions.decls : List FieldDecl :=
  [⟨"EncodedRegistryAuth", .string, "string", "X-Registry-Auth"⟩,
   ⟨"Body", .ptr, "*swarm.ServiceSpec", ""⟩]

/-- Field declarations of `ServiceCreateResponse`. -/
def ServiceCreateResponse.decls : List FieldDecl :=
  [⟨"ID", .string, "string", "Id"⟩]

/-- Field declarations of `ServiceUpdateOptions`. -/
def ServiceUpdateOptions.decls : List FieldDecl :=
  [⟨"ID", .string, "string", "id"⟩,
   ⟨"EncodedRegistryAuth", .string, "string", "X-Registry-Auth"⟩,
   ⟨"Body", .ptr, "*swarm.ServiceSpec", ""⟩]

/-- Field declarations of `ServiceRemoveParameters`. -/
def ServiceRemoveParameters.decls : List FieldDecl :=
  [⟨"ID", .string, "string", "id"⟩]

/-- Field declarations of `ServiceListOptions`. -/
def ServiceListOptions.decls : List FieldDecl :=
  [⟨"Filter", .map, "filters.Args", "filters,string"⟩]

/-- Field declarations of `TaskListOptions`. -/
def TaskListOptions.decls : List FieldDecl :=
  [⟨"Filter", .map, "filters.Args", "filters,string"⟩]

/-- Field declarations of `VolumeListOptions`. -/
def VolumeListOptions.decls : List FieldDecl :=
  [⟨"Filter", .map, "filters.Args", "filters,string"⟩]

/-! ## Struct declarations of `types/configs.go`, `types/auth.go`, `types/errors.go` -/

/-- Field declarations of `ContainerCreateConfig`. -/
def ContainerCreateConfig.decls : List FieldDecl :=
  [⟨"Name", .string, "string", "name"⟩,
   ⟨"Config", .ptr, "*container.Config", ""⟩,
   ⟨"HostConfig", .ptr, "*container.HostConfig", ""⟩,
   ⟨"NetworkingConfig", .ptr, "*network.NetworkingConfig", ""⟩,
   ⟨"AdjustCPUShares", .bool, "bool", ""⟩]

/-- Field declarations of `ContainerRmConfig`. -/
def ContainerRmConfig.decls : List FieldDecl :=
  [⟨"ID", .string, "string", "id"⟩,
   ⟨"ForceRemove", .bool, "bool", "force"⟩,
   ⟨"RemoveVolume", .bool, "bool", "v"⟩,
   ⟨"RemoveLink", .bool, "bool", "link"⟩]

/-- Field declarations of `ContainerCommitConfig`. -/
def ContainerCommitConfig.decls : List FieldDecl :=
  [⟨"Pause", .bool, "bool", ""⟩,
   ⟨"Repo", .string, "string", ""⟩,
   ⟨"Tag", .string, "string", ""⟩,
   ⟨"Author", .string, "string", ""⟩,
   ⟨"Comment", .string, "string", ""⟩,
   ⟨"MergeConfigs", .bool, "bool", ""⟩,
   ⟨"Config", .ptr, "*container.Config", ""⟩]

/-- Field declarations of `ExecConfig`. -/
def ExecConfig.decls : List FieldDecl :=
  [⟨"User", .string, "string", ""⟩,
   ⟨"Privileged", .bool, "bool", ""⟩,
   ⟨"Tty", .bool, "bool", ""⟩,
   ⟨"AttachStdin", .bool, "bool", ""⟩,
   ⟨"AttachStderr", .bool, "bool", ""⟩,
   ⟨"AttachStdout", .bool, "bool", ""⟩,
   ⟨"Detach", .bool, "bool", ""⟩,
   ⟨"DetachKeys", .string, "string", ""⟩,
   ⟨"Cmd", .slice, "[]string", ""⟩]

/-- Field declarations of `AuthConfig`. -/
def AuthConfig.decls : List FieldDecl :=
  [⟨"Username", .string, "string", "username,omitempty"⟩,
   ⟨"Password", .string, "string", "password,omitempty"⟩,
   ⟨"Auth", .string, "string", "auth,omitempty"⟩,
   ⟨"Email", .string, "string", "email,omitempty"⟩,
   ⟨"ServerAddress", .string, "string", "serveraddress,omitempty"⟩,
   ⟨"IdentityToken", .string, "string", "identitytoken,omitempty"⟩,
   ⟨"RegistryToken", .string, "string", "registrytoken,omitempty"⟩]

/-- Field declarations of `ErrorResponse`. -/
def ErrorResponse.decls : List FieldDecl :=
  [⟨"Message", .string, "string", "message"⟩]

/-- Field declarations of `BadParameterError`, a defined type over `ErrorResponse`. -/
def BadParameterError.decls : List FieldDecl := ErrorResponse.decls

/-- Field declarations of `InternalServerError`, a defined type over `ErrorResponse`. -/
def InternalServerError.decls : List FieldDecl := ErrorResponse.decls

/-- A struct declaration: its Go name and its fields in declaration order. -/
structure StructDecl where
  name : String
  fields : List FieldDecl
  deriving DecidableEq, Repr

/-- The structs declared in `types/client.go`, in source order. -/
def clientStructs : List StructDecl :=
  [ ⟨"CheckpointCreateOptions", CheckpointCreateOptions.decls⟩,
    ⟨"ContainerAttachOptions", ContainerAttachOptions.decls⟩,
    ⟨"ContainerCommitOptions", ContainerCommitOptions.decls⟩,
    ⟨"ContainerExecInspect", ContainerExecInspect.decls⟩,
    ⟨"ContainerListOptions", ContainerListOptions.decls⟩,
    ⟨"ContainerStatsOptions", ContainerStatsOptions.decls⟩,
    ⟨"ContainerLogsOptions", ContainerLogsOptions.decls⟩,
    ⟨"ContainerExportOptions", ContainerExportOptions.decls⟩,
    ⟨"ContainerUpdateOptions", ContainerUpdateOptions.decls⟩,
    ⟨"ContainerCreateOptions", ContainerCreateOptions.decls⟩,
    ⟨"ContainerRemoveOptions", ContainerRemoveOptions.decls⟩,
    ⟨"ContainerStartOptions", ContainerStartOptions.decls⟩,
    ⟨"ContainerStopOptions", ContainerStopOptions.decls⟩,
    ⟨"ContainerKillOptions", ContainerKillOptions.decls⟩,
    ⟨"ContainerRestartOptions", ContainerRestartOptions.decls⟩,
    ⟨"ContainerPauseOptions", ContainerPauseOptions.decls⟩,
    ⟨"ContainerUnpauseOptions", ContainerUnpauseOptions.decls⟩,
    ⟨"ContainerTopOptions", ContainerTopOptions.decls⟩,
    ⟨"ContainerRenameOptions", ContainerRenameOptions.decls⟩,
    ⟨"CopyToContainerOptions", CopyToContainerOptions.decls⟩,
    ⟨"EventsOptions", EventsOptions.decls⟩, ⟨"NetworkListOptions", NetworkListOptions.decls⟩,
    ⟨"NetworkGetOptions", NetworkGetOptions.decls⟩, ⟨"HijackedResponse", HijackedResponse.decls⟩,
    ⟨"ImageBuildOptions", ImageBuildOptions.decls⟩,
    ⟨"ImageBuildResponse", ImageBuildResponse.decls⟩,
    ⟨"ImageCreateOptions", ImageCreateOptions.decls⟩,
    ⟨"ImageImportSource", ImageImportSource.decls⟩,
    ⟨"ImageImportOptions", ImageImportOptions.decls⟩,
    ⟨"ImageListOptions", ImageListOptions.decls⟩,
    ⟨"ImageHistoryOptions", ImageHistoryOptions.decls⟩,
    ⟨"ImageTagOptions", ImageTagOptions.decls⟩, ⟨"ImageLoadResponse", ImageLoadResponse.decls⟩,
    ⟨"ImagePullOptions", ImagePullOptions.decls⟩, ⟨"ImagePushOptions", ImagePushOptions.decls⟩,
    ⟨"ImageRemoveOptions", ImageRemoveOptions.decls⟩,
    ⟨"ImageSearchOptions", ImageSearchOptions.decls⟩, ⟨"ImageGetOptions", ImageGetOptions.decls⟩,
    ⟨"ResizeOptions", ResizeOptions.decls⟩, ⟨"VersionResponse", VersionResponse.decls⟩,
    ⟨"NodeListOptions", NodeListOptions.decls⟩, ⟨"NodeUpdateOptions", NodeUpdateOptions.decls⟩,
    ⟨"NodeRemoveOptions", NodeRemoveOptions.decls⟩,
    ⟨"ServiceCreateOptions", ServiceCreateOptions.decls⟩,
    ⟨"ServiceCreateResponse", ServiceCreateResponse.decls⟩,
    ⟨"ServiceUpdateOptions", ServiceUpdateOptions.decls⟩,
    ⟨"ServiceRemoveParameters", ServiceRemoveParameters.decls⟩,
    ⟨"ServiceListOptions", ServiceListOptions.decls⟩, ⟨"TaskListOptions", TaskListOptions.decls⟩,
    ⟨"VolumeListOptions", VolumeListOptions.decls⟩ ]

/-- The structs of `types/configs.go`, `types/auth.go`, `types/errors.go` and
`types/container/config.go`. -/
def configStructs : List StructDecl :=
  [ ⟨"ContainerCreateConfig", ContainerCreateConfig.decls⟩,
    ⟨"ContainerRmConfig", ContainerRmConfig.decls⟩,
    ⟨"ContainerCommitConfig", ContainerCommitConfig.decls⟩, ⟨"ExecConfig", ExecConfig.decls⟩,
    ⟨"AuthConfig", AuthConfig.decls⟩, ⟨"ErrorResponse", ErrorResponse.decls⟩,
    ⟨"BadParameterError", BadParameterError.decls⟩,
    ⟨"InternalServerError", InternalServerError.decls⟩, ⟨"HealthConfig", HealthConfig.decls⟩,
    ⟨"Config", Config.decls⟩ ]

/-- Every struct declared in the package sources. -/
def packageStructs : List StructDecl := clientStructs ++ configStructs

/-- Declaration of field `fname` of the struct named `sname` among `structs`. -/
def fieldNamed (structs : List StructDecl) (sname fname : String) : Option FieldDecl :=
  match structs.find? (fun s => s.name = sname) with
  | some s => s.fields.find? (fun d => d.name = fname)
  | none => none

/-- Wire key of field `fname` of struct `sname`. -/
def wireKeyOf (structs : List StructDecl) (sname fname : String) : Option String :=
  (fieldNamed structs sname fname).map FieldDecl.wireKey

/-- Whether a field carries a filter expression: its declared type is `filters.Args`. -/
def FieldDecl.isFilter (d : FieldDecl) : Bool := d.goType = "filters.Args"

/-- Names of the structs that have a filter field. -/
def structsWithFilter (structs : List StructDecl) : List String :=
  (structs.filter fun s => s.fields.any FieldDecl.isFilter).map StructDecl.name

/-! ## types/errors.go -/

/-- ErrorResponse is the response body of API errors. -/
structure ErrorResponse where
  Message : String

/-- BadParameterError: a defined type with the fields of `ErrorResponse`. -/
structure BadParameterError where
  Message : String

/-- InternalServerError: a defined type with the fields of `ErrorResponse`. -/
structure InternalServerError where
  Message : String

instance : GoJson ErrorResponse where
  isEmptyValue _ := false
  encode e := marshalStruct ErrorResponse.decls [fieldVal e.Message]

instance : GoJson BadParameterError where
  isEmptyValue _ := false
  encode e := marshalStruct BadParameterError.decls [fieldVal e.Message]

instance : GoJson InternalServerError where
  isEmptyValue _ := false
  encode e := marshalStruct InternalServerError.decls [fieldVal e.Message]

/-! ## types/configs.go -/

/-- ContainerCreateConfig holds parameters for creating containers. The types
`container.HostConfig` and `network.NetworkingConfig` are declared outside these sources
and are taken as parameters `H` and `N` with their own encoders. -/
structure ContainerCreateConfig (H N : Type) where
  Name : String
  Config : Option EngineApi.Config
  HostConfig : Option H
  NetworkingConfig : Option N
  AdjustCPUShares : Bool

/-- Field values of a `ContainerCreateConfig`, in declaration order. -/
def ContainerCreateConfig.vals {H N : Type} [GoJson H] [GoJson N]
    (cc : ContainerCreateConfig H N) : List FieldVal :=
  [ fieldVal cc.Name, fieldVal cc.Config, fieldVal cc.HostConfig,
    fieldVal cc.NetworkingConfig, fieldVal cc.AdjustCPUShares ]

instance {H N : Type} [GoJson H] [GoJson N] : GoJson (ContainerCreateConfig H N) where
  isEmptyValue _ := false
  encode cc := marshalStruct ContainerCreateConfig.decls cc.vals

/-- The Config of the create-container scenario: command `nginx -g "daemon off;"`, no
health check, every other field at its zero value. -/
def ContainerCreateConfig.web1Config : EngineApi.Config :=
  { EngineApi.Config.zero with Cmd := .of ["nginx", "-g", "daemon off;"] }

/-- The create-container aggregate of the scenario, named `web-1`. -/
def ContainerCreateConfig.web1 : ContainerCreateConfig Unit Unit :=
  { Name := "web-1", Config := some ContainerCreateConfig.web1Config, HostConfig := none,
    NetworkingConfig := none, AdjustCPUShares := false }

/-! ## types/client.go: VersionResponse and HijackedResponse -/

/-- VersionResponse holds version information for the client and the server; the record
type `Version` is declared outside these sources and is the parameter `V`. -/
structure VersionResponse (V : Type) where
  Client : Option V
  Server : Option V

/-- ServerOK: `v.Server != nil`. -/
def VersionResponse.ServerOK {V : Type} (v : VersionResponse V) : Bool :=
  match v.Server with
  | none => false
  | some _ => true

/-- A Go `error` result; `none` is `nil`. -/
abbrev GoError := Option String

/-- The value held in a `net.Conn` interface: the connection state, its `Close` method,
and its `CloseWrite` method when the dynamic type implements `CloseWriter`. -/
structure NetConn (σ : Type) where
  state : σ
  Close : σ → σ × GoError
  CloseWrite : Option (σ → σ × GoError)

/-- Method calls issued on the connection. -/
inductive ConnCall where
  | Close
  | CloseWrite
  deriving DecidableEq, Repr

/-- HijackedResponse holds connection information for a hijacked request; `ρ` is the
state of the `*bufio.Reader`. -/
structure HijackedResponse (σ ρ : Type) where
  Conn : NetConn σ
  Reader : ρ

/-- Close closes the hijacked connection; the connection's result is dropped. Returns the
response afterwards and the calls issued. -/
def HijackedResponse.Close {σ ρ : Type} (h : HijackedResponse σ ρ) :
    HijackedResponse σ ρ × List ConnCall :=
  ({ h with Conn := { h.Conn with state := (h.Conn.Close h.Conn.state).1 } }, [ConnCall.Close])

/-- CloseWrite closes a readWriter for writing: if the connection is a `CloseWriter`, call
its `CloseWrite` and return the result, else return nil. Returns the error, the response
afterwards and the calls issued on the connection. -/
def HijackedResponse.CloseWrite {σ ρ : Type} (h : HijackedResponse σ ρ) :
    GoError × HijackedResponse σ ρ × List ConnCall :=
  match h.Conn.CloseWrite with
  | some closeWrite =>
    ((closeWrite h.Conn.state).2,
     { h with Conn := { h.Conn with state := (closeWrite h.Conn.state).1 } },
     [ConnCall.CloseWrite])
  | none => (none, h, [])

/-! ## Filter expressions (`filters.Args`) and their JSON text codec -/

namespace filters

/-- Modelled from the spec: `filters.Args` (package `types/filters`, not part of the sources
at hand) is a mapping from filter key to a set of acceptable string values. Entries are
kept in insertion order; a key occurs once and a value occurs once in its set. -/
abbrev Args := List (String × List String)

/-- Modelled from the spec: a valid filter expression is a mapping (no key twice) to sets
(no value twice in a set); part of the absent package `types/filters`. -/
def Args.Valid (m : Args) : Prop :=
  (m.map Prod.fst).Nodup ∧ ∀ e ∈ m, e.2.Nodup

instance : DecidablePred Args.Valid := fun m => by
  unfold Args.Valid; infer_instance

/-- Modelled from the spec: insertion into a value set of the absent package
`types/filters`; a value already present is not inserted again. -/
def setInsert (vs : List String) (v : String) : List String :=
  if v ∈ vs then vs else vs ++ [v]

/-- Modelled from the spec: `Add(key, value)` of the absent package `types/filters` inserts
value into the set for key; no-op if already present. -/
def Add : Args → String → String → Args
  | [], key, value => [(key, [value])]
  | (k, vs) :: rest, key, value =>
    if k = key then (k, setInsert vs value) :: rest else (k, vs) :: Add rest key value

/-- Modelled from the spec: binding a key of the mapping to a set (absent package
`types/filters`); an existing binding of the key is replaced. -/
def put : Args → String → List String → Args
  | [], key, set => [(key, set)]
  | (k, vs) :: rest, key, set =>
    if k = key then (k, set) :: rest else (k, vs) :: put rest key set

/-- Modelled from the spec: the double quote character of JSON text (codec of the absent
package `types/filters`). -/
def quote : Char := Char.ofNat 34

/-- Modelled from the spec: the backslash character of JSON text (codec of the absent
package `types/filters`). -/
def backslash : Char := Char.ofNat 92

/-- Modelled from the spec: lower-case hexadecimal digit of a number below 16 (encoder of
the absent package `types/filters`). -/
def hexDigit (n : Nat) : Char :=
  if n < 10 then Char.ofNat (48 + n) else Char.ofNat (87 + n)

/-- Modelled from the spec: value of a hexadecimal digit, either case (decoder of the
absent package `types/filters`). -/
def hexVal (c : Char) : Option Nat :=
  if 48 ≤ c.toNat ∧ c.toNat ≤ 57 then some (c.toNat - 48)
  else if 97 ≤ c.toNat ∧ c.toNat ≤ 102 then some (c.toNat - 87)
  else if 65 ≤ c.toNat ∧ c.toNat ≤ 70 then some (c.toNat - 55)
  else none

/-- Modelled from the spec: value of four hexadecimal digits (decoder of the absent package
`types/filters`). -/
def hex4 (a b c d : Char) : Option Nat :=
  match hexVal a, hexVal b, hexVal c, hexVal d with
  | some x, some y, some z, some w => some (((x * 16 + y) * 16 + z) * 16 + w)
  | _, _, _, _ => none

/-- Modelled from the spec: JSON text of one character inside a string, for the encoder of
the absent package `types/filters`: quote and backslash are escaped, control characters are
written as a `u` escape, every other character stands for itself. -/
def escapeChar (c : Char) : List Char :=
  if c = quote then [backslash, quote]
  else if c = backslash then [backslash, backslash]
  else if c.toNat < 32 then
    [backslash, 'u', '0', '0', hexDigit (c.toNat / 16), hexDigit (c.toNat % 16)]
  else [c]

/-- Modelled from the spec: JSON text of a string (encoder of the absent package
`types/filters`). -/
def renderString (s : String) : List Char :=
  quote :: (s.data.flatMap escapeChar ++ [quote])

/-- Modelled from the spec: the elements of a compact JSON array of strings and its closing
bracket (encoder of the absent package `types/filters`). -/
def renderElems : List String → List Char
  | [] => [']']
  | [v] => renderString v ++ [']']
  | v :: w :: vs => renderString v ++ ',' :: renderElems (w :: vs)

/-- Modelled from the spec: the members of a compact JSON object of key to array of strings
and its closing brace (encoder of the absent package `types/filters`). -/
def renderMembers : Args → List Char
  | [] => ['\x7d']
  | [e] => renderString e.1 ++ ':' :: '[' :: (renderElems e.2 ++ ['\x7d'])
  | e :: f :: es =>
    renderString e.1 ++ ':' :: '[' :: (renderElems e.2 ++ ',' :: renderMembers (f :: es))

/-- Modelled from the spec: `Encode() -> string` of the absent package `types/filters`
produces the compact JSON object of key to array of strings, keys in the stable order of
the mapping; the empty mapping encodes to the empty object. -/
def Encode (m : Args) : String :=
  String.mk ('\x7b' :: renderMembers m)

/-- Modelled from the spec: JSON whitespace is space, tab, line feed and carriage return
(decoder of the absent package `types/filters`). -/
def isWs (c : Char) : Bool :=
  c.toNat = 32 || c.toNat = 9 || c.toNat = 10 || c.toNat = 13

/-- Modelled from the spec: dropping of leading whitespace (decoder of the absent package
`types/filters`). -/
def skipWs : List Char → List Char
  | [] => []
  | c :: cs => if isWs c then skipWs cs else c :: cs

/-- Modelled from the spec: the character a one-letter JSON escape stands for (decoder of
the absent package `types/filters`). -/
def unescape (e : Char) : Option Char :=
  if e = quote then some quote
  else if e = backslash then some backslash
  else if e = '/' then some '/'
  else if e = 'b' then some (Char.ofNat 8)
  else if e = 'f' then some (Char.ofNat 12)
  else if e = 'n' then some (Char.ofNat 10)
  else if e = 'r' then some (Char.ofNat 13)
  else if e = 't' then some (Char.ofNat 9)
  else none

/-- Modelled from the spec: a decoded character put in front of the result of decoding the
rest (decoder of the absent package `types/filters`). -/
def consTo (c : Char) (r : Option (List Char × List Char)) : Option (List Char × List Char) :=
  r.map fun p => (c :: p.1, p.2)

/-- Modelled from the spec: decoding of the second half of a surrogate pair whose first
half is `n` (decoder of the absent package `types/filters`). -/
def parseLowSurrogate (n : Nat) : List Char → Option (Char × List Char)
  | b1 :: u1 :: a :: b :: c :: d :: r =>
    if b1 = backslash ∧ u1 = 'u' then
      match hex4 a b c d with
      | some m =>
        if 0xDC00 ≤ m ∧ m < 0xE000 then
          some (Char.ofNat (0x10000 + (n - 0xD800) * 0x400 + (m - 0xDC00)), r)
        else none
      | none => none
    else none
  | _ => none

/-- Modelled from the spec: decoding of an escape after its backslash (decoder of the
absent package `types/filters`): the character it stands for and the text after it.
Escapes are the one-letter ones and `u` with four hexadecimal digits, a surrogate pair
standing for one character; an unknown escape or a lone surrogate is a format error. -/
def parseEscape : List Char → Option (Char × List Char)
  | [] => none
  | e :: es =>
    if e = 'u' then
      match es with
      | a :: b :: c :: d :: r =>
        match hex4 a b c d with
        | none => none
        | some n =>
          if n < 0xD800 ∨ 0xE000 ≤ n then some (Char.ofNat n, r)
          else if n < 0xDC00 then parseLowSurrogate n r
          else none
      | _ => none
    else (unescape e).map fun ch => (ch, es)

/-- Modelled from the spec: decoding of the body of a JSON string up to its closing quote
(decoder of the absent package `types/filters`): the decoded characters and the text
after the quote. A raw control character, a bad escape or a missing closing quote is a
format error. The first argument bounds the number of characters decoded. -/
def parseStringBody : Nat → List Char → Option (List Char × List Char)
  | 0, _ => none
  | _ + 1, [] => none
  | fuel + 1, c :: cs =>
    if c = quote then some ([], cs)
    else if c = backslash then
      match parseEscape cs with
      | some (ch, r) => consTo ch (parseStringBody fuel r)
      | none => none
    else if c.toNat < 32 then none
    else consTo c (parseStringBody fuel cs)

/-- Modelled from the spec: decoding of a JSON string at the head of the text (decoder of
the absent package `types/filters`). -/
def parseString : List Char → Option (String × List Char)
  | [] => none
  | c :: rest =>
    if c = quote then
      (parseStringBody rest.length rest).map fun p => (String.mk p.1, p.2)
    else none

/-- Modelled from the spec: decoding of the elements of a non-empty JSON array of strings
(decoder of the absent package `types/filters`); the first argument bounds the number of
elements. -/
def parseElems : Nat → List Char → Option (List String × List Char)
  | 0, _ => none
  | fuel + 1, cs =>
    match parseString cs with
    | none => none
    | some (s, rest) =>
      match skipWs rest with
      | [] => none
      | c :: rest1 =>
        if c = ',' then (parseElems fuel (skipWs rest1)).map fun p => (s :: p.1, p.2)
        else if c = ']' then some ([s], rest1)
        else none

/-- Modelled from the spec: decoding of a JSON array of strings (decoder of the absent
package `types/filters`). -/
def parseArray (bound : Nat) : List Char → Option (List String × List Char)
  | [] => none
  | c :: rest =>
    if c = '[' then
      match skipWs rest with
      | [] => none
      | d :: rest1 => if d = ']' then some ([], rest1) else parseElems bound (d :: rest1)
    else none

/-- Modelled from the spec: decoding of the members of a non-empty JSON object of key to
array of strings (decoder of the absent package `types/filters`); `bound` bounds the
elements of each array, the second argument the number of members. -/
def parseMembers (bound : Nat) : Nat → List Char → Option (List (String × List String) × List Char)
  | 0, _ => none
  | fuel + 1, cs =>
    match parseString cs with
    | none => none
    | some (k, rest) =>
      match skipWs rest with
      | [] => none
      | c :: rest1 =>
        if c = ':' then
          match parseArray bound (skipWs rest1) with
          | none => none
          | some (vs, rest2) =>
            match skipWs rest2 with
            | [] => none
            | d :: rest3 =>
              if d = ',' then
                (parseMembers bound fuel (skipWs rest3)).map fun p => ((k, vs) :: p.1, p.2)
              else if d = '\x7d' then some ([(k, vs)], rest3)
              else none
        else none

/-- Modelled from the spec: decoding of a JSON object of key to array of strings (decoder
of the absent package `types/filters`). -/
def parseObject (bound : Nat) : List Char → Option (List (String × List String) × List Char)
  | [] => none
  | c :: rest =>
    if c = '\x7b' then
      match skipWs rest with
      | [] => none
      | d :: rest1 =>
        if d = '\x7d' then some ([], rest1) else parseMembers bound bound (d :: rest1)
    else none

/-- Modelled from the spec: the mapping denoted by the members of a decoded object (absent
package `types/filters`): each key is bound to the set of the values of its array. -/
def build (members : List (String × List String)) : Args :=
  members.foldl (fun m e => e.2.foldl (fun m v => Add m e.1 v) (put m e.1 [])) []

/-- Modelled from the spec: the error of `Decode`, of the absent package `types/filters`. -/
inductive FormatError where
  | notAFilterObject
  deriving DecidableEq, Repr

/-- Modelled from the spec: `Decode(jsonText) -> mapping, error` of the absent package
`types/filters` fails with a FormatError when the text is not a JSON object of
string-to-array-of-strings. -/
def Decode (text : String) : Except FormatError Args :=
  match parseObject text.data.length (skipWs text.data) with
  | none => .error .notAFilterObject
  | some (members, rest) =>
    if skipWs rest = [] then .ok (build members) else .error .notAFilterObject

end filters

/-! ## Option structs carrying detach keys and log flags -/

/-- ContainerAttachOptions holds parameters to attach to a container. -/
structure ContainerAttachOptions where
  ID : String
  Logs : Bool
  Stream : Bool
  Stdin : Bool
  Stdout : Bool
  Stderr : Bool
  DetachKeys : String

/-- Field values of a `ContainerAttachOptions`, in declaration order. -/
def ContainerAttachOptions.vals (o : ContainerAttachOptions) : List FieldVal :=
  [ fieldVal o.ID, fieldVal o.Logs, fieldVal o.Stream, fieldVal o.Stdin, fieldVal o.Stdout,
    fieldVal o.Stderr, fieldVal o.DetachKeys ]

instance : GoJson ContainerAttachOptions where
  isEmptyValue _ := false
  encode o := marshalStruct ContainerAttachOptions.decls o.vals

/-- ContainerStopOptions holds parameters for POST /containers/(id)/stop. -/
structure ContainerStopOptions where
  ID : String
  DetachKeys : String

/-- Field values of a `ContainerStopOptions`, in declaration order. -/
def ContainerStopOptions.vals (o : ContainerStopOptions) : List FieldVal :=
  [ fieldVal o.ID, fieldVal o.DetachKeys ]

instance : GoJson ContainerStopOptions where
  isEmptyValue _ := false
  encode o := marshalStruct ContainerStopOptions.decls o.vals

/-- ExecConfig is a small subset of the Config struct that holds the configuration for the
exec feature of docker. -/
structure ExecConfig where
  User : String
  Privileged : Bool
  Tty : Bool
  AttachStdin : Bool
  AttachStderr : Bool
  AttachStdout : Bool
  Detach : Bool
  DetachKeys : String
  Cmd : GoSlice String

/-- Field values of an `ExecConfig`, in declaration order. -/
def ExecConfig.vals (e : ExecConfig) : List FieldVal :=
  [ fieldVal e.User, fieldVal e.Privileged, fieldVal e.Tty, fieldVal e.AttachStdin,
    fieldVal e.AttachStderr, fieldVal e.AttachStdout, fieldVal e.Detach,
    fieldVal e.DetachKeys, fieldVal e.Cmd ]

instance : GoJson ExecConfig where
  isEmptyValue _ := false
  encode e := marshalStruct ExecConfig.decls e.vals

/-- ContainerLogsOptions holds parameters to filter logs with. -/
structure ContainerLogsOptions where
  ID : String
  ShowStdout : Bool
  ShowStderr : Bool
  Since : String
  Timestamps : Bool
  Follow : Bool
  Tail : String
  Details : Bool

/-- Field values of a `ContainerLogsOptions`, in declaration order. -/
def ContainerLogsOptions.vals (o : ContainerLogsOptions) : List FieldVal :=
  [ fieldVal o.ID, fieldVal o.ShowStdout, fieldVal o.ShowStderr, fieldVal o.Since,
    fieldVal o.Timestamps, fieldVal o.Follow, fieldVal o.Tail, fieldVal o.Details ]

instance : GoJson ContainerLogsOptions where
  isEmptyValue _ := false
  encode o := marshalStruct ContainerLogsOptions.decls o.vals

/-! ## Theorems -/

theorem config_typeFields_eq : typeFields Config.decls =
    [ ⟨"Hostname", 0, false, false, false⟩, ⟨"Domainname", 1, false, false, false⟩,
      ⟨"User", 2, false, false, false⟩, ⟨"AttachStdin", 3, false, false, false⟩,
      ⟨"AttachStdout", 4, false, false, false⟩, ⟨"AttachStderr", 5, false, false, false⟩,
      ⟨"ExposedPorts", 6, false, true, false⟩, ⟨"Tty", 7, false, false, false⟩,
      ⟨"OpenStdin", 8, false, false, false⟩, ⟨"StdinOnce", 9, false, false, false⟩,
      ⟨"Env", 10, false, false, false⟩, ⟨"Cmd", 11, false, false, false⟩,
      ⟨"Healthcheck", 12, false, true, false⟩, ⟨"ArgsEscaped", 13, false, true, false⟩,
      ⟨"Image", 14, false, false, false⟩, ⟨"Volumes", 15, false, false, false⟩,
      ⟨"WorkingDir", 16, false, false, false⟩, ⟨"Entrypoint", 17, false, false, false⟩,
      ⟨"NetworkDisabled", 18, false, true, false⟩, ⟨"MacAddress", 19, false, true, false⟩,
      ⟨"OnBuild", 20, false, false, false⟩, ⟨"Labels", 21, false, false, false⟩,
      ⟨"StopSignal", 22, false, true, false⟩, ⟨"StopTimeout", 23, false, true, false⟩,
      ⟨"Shell", 24, false, true, false⟩ ] := by
  decide

/-! ## Facts about the struct encoder -/

theorem emitField_name {vals : List FieldVal} {f : EncField} {m : String × Json}
    (h : emitField vals f = some m) : m.1 = f.name := by
  unfold emitField at h
  split at h
  · split at h
    · exact absurd h (by simp)
    · cases h; rfl
  · exact absurd h (by simp)

theorem mem_keys_marshalStruct (decls : List FieldDecl) (vals : List FieldVal) (k : String) :
    k ∈ (marshalStruct decls vals).keys ↔
      ∃ f ∈ typeFields decls, f.name = k ∧ (emitField vals f).isSome = true := by
  simp only [marshalStruct, Json.keys, List.mem_map, List.mem_filterMap]
  constructor
  · rintro ⟨m, ⟨f, hf, hm⟩, rfl⟩
    exact ⟨f, hf, (emitField_name hm).symm, by simp [hm]⟩
  · rintro ⟨f, hf, rfl, hs⟩
    obtain ⟨m, hm⟩ := Option.isSome_iff_exists.mp hs
    exact ⟨m, ⟨f, hf, hm⟩, emitField_name hm⟩

theorem lookup_filterMap_emit (vals : List FieldVal) :
    ∀ (fs : List EncField), (fs.map EncField.name).Nodup → ∀ f ∈ fs,
      Json.lookup f.name (fs.filterMap (emitField vals)) = (emitField vals f).map Prod.snd
  | [], _, f, hf => by simp at hf
  | g :: gs, hnd, f, hf => by
    rw [List.map_cons, List.nodup_cons] at hnd
    rcases List.mem_cons.mp hf with rfl | hmem
    · cases hg : emitField vals f with
      | none =>
        have : Json.lookup f.name (gs.filterMap (emitField vals)) = none := by
          have hnot : ∀ (l : List EncField), f.name ∉ l.map EncField.name →
              Json.lookup f.name (l.filterMap (emitField vals)) = none := by
            intro l
            induction l with
            | nil => intro _; rfl
            | cons a l ih =>
              intro hn
              rw [List.map_cons, List.mem_cons, not_or] at hn
              cases ha : emitField vals a with
              | none => rw [List.filterMap_cons_none ha]; exact ih hn.2
              | some m =>
                rw [List.filterMap_cons_some ha]
                have hm := emitField_name ha
                obtain ⟨k, v⟩ := m
                simp only at hm
                subst hm
                simp only [Json.lookup]
                rw [if_neg (fun h => hn.1 h.symm)]
                exact ih hn.2
          exact hnot gs hnd.1
        rw [List.filterMap_cons_none hg, this]; rfl
      | some m =>
        rw [List.filterMap_cons_some hg]
        have hm := emitField_name hg
        obtain ⟨k, v⟩ := m
        simp only at hm
        subst hm
        simp [Json.lookup]
    · have hne : g.name ≠ f.name := by
        intro h
        exact hnd.1 (h ▸ List.mem_map_of_mem EncField.name hmem)
      cases hg : emitField vals g with
      | none =>
        rw [List.filterMap_cons_none hg]
        exact lookup_filterMap_emit vals gs hnd.2 f hmem
      | some m =>
        rw [List.filterMap_cons_some hg]
        have hm := emitField_name hg
        obtain ⟨k, v⟩ := m
        simp only at hm
        subst hm
        simp only [Json.lookup]
        rw [if_neg hne]
        exact lookup_filterMap_emit vals gs hnd.2 f hmem

theorem get?_marshalStruct (decls : List FieldDecl) (vals : List FieldVal)
    (hnd : ((typeFields decls).map EncField.name).Nodup) (f : EncField)
    (hf : f ∈ typeFields decls) :
    (marshalStruct decls vals).get? f.name = (emitField vals f).map Prod.snd :=
  lookup_filterMap_emit vals _ hnd f hf

theorem config_encode_def (c : Config) :
    GoJson.encode c = marshalStruct Config.decls c.vals := rfl

theorem healthConfig_encode_def (h : HealthConfig) :
    GoJson.encode h = marshalStruct HealthConfig.decls h.vals := rfl

theorem healthConfig_typeFields_eq : typeFields HealthConfig.decls =
    [ ⟨"Test", 0, false, true, false⟩, ⟨"Interval", 1, false, true, false⟩,
      ⟨"Timeout", 2, false, true, false⟩, ⟨"Retries", 3, false, true, false⟩ ] := by
  decide

theorem config_typeFields_nodup : ((typeFields Config.decls).map EncField.name).Nodup := by
  rw [config_typeFields_eq]; decide

theorem healthConfig_typeFields_nodup :
    ((typeFields HealthConfig.decls).map EncField.name).Nodup := by
  rw [healthConfig_typeFields_eq]; decide

/-! ## Container configuration: which keys are written -/

/-- The keys of the Config fields declared with `omitempty`. -/
theorem config_omitempty_keys :
    ((Config.decls.filter fun d =>
        tagOptionsContains (cutComma d.tag.data).2 "omitempty").map FieldDecl.wireKey) =
      ["ExposedPorts", "Healthcheck", "ArgsEscaped", "NetworkDisabled", "MacAddress",
       "StopSignal", "StopTimeout", "Shell"] := by
  decide

/-- C1 (as stated) fails: `Hostname` carries no `omitempty`, so a Config whose Hostname is
the empty string (here the zero Config) is still written with a `Hostname` key. -/
theorem Config.unset_field_still_written :
    ¬ ∀ (c : Config) (i : Nat) (d : FieldDecl) (v : FieldVal),
        Config.decls.get? i = some d → c.vals.get? i = some v → v.empty = true →
        d.wireKey ∉ (GoJson.encode c).keys := by
  intro h
  refine h Config.zero 0 ⟨"Hostname", .string, "string", ""⟩ (fieldVal "") rfl rfl rfl ?_
  rw [config_encode_def, mem_keys_marshalStruct, config_typeFields_eq]
  exact ⟨⟨"Hostname", 0, false, false, false⟩, by simp, by decide, rfl⟩

/-- C1 (amended): for every Config and every field declared with `omitempty`
(ExposedPorts, Healthcheck, ArgsEscaped, NetworkDisabled, MacAddress, StopSignal,
StopTimeout, Shell) that is unset, the serialized object has no key for that field,
whatever the other fields hold. -/
theorem Config.omitempty_field_absent (c : Config) (i : Nat) (d : FieldDecl) (v : FieldVal)
    (hd : Config.decls.get? i = some d) (hv : c.vals.get? i = some v)
    (hempty : v.empty = true)
    (homit : tagOptionsContains (cutComma d.tag.data).2 "omitempty" = true) :
    d.wireKey ∉ (GoJson.encode c).keys := by
  have hi : i < 25 := by
    have := (List.get?_eq_some.mp hd).1
    simpa [Config.decls] using this
  rw [config_encode_def, mem_keys_marshalStruct, config_typeFields_eq]
  interval_cases i <;> simp only [Config.decls, List.get?, Option.some.injEq] at hd <;>
    subst hd <;> first
    | exact absurd homit (by decide)
    | (simp only [Config.vals, List.get?, Option.some.injEq] at hv
       subst hv
       simp [FieldDecl.wireKey, tagKey, cutComma, isValidTag, emitField, Config.vals, hempty])

/-- Witness for C1 (amended): the zero Config has an unset `MacAddress` and no such key. -/
theorem Config.omitempty_field_absent_witness :
    (fieldVal Config.zero.MacAddress).empty = true ∧
      "MacAddress" ∉ (GoJson.encode Config.zero).keys :=
  ⟨rfl, Config.omitempty_field_absent Config.zero 19
    ⟨"MacAddress", .string, "string", ",omitempty"⟩ (fieldVal Config.zero.MacAddress)
    rfl rfl rfl (by decide)⟩

/-- C2: two Configs that agree on every field but StopTimeout, one with it unset and one
with it set to 0, serialize differently: the first has no `StopTimeout` key, the second
has `StopTimeout` with value 0. -/
theorem Config.stopTimeout_unset_differs_from_zero (a b : Config)
    (ha : a.StopTimeout = none) (hb : b = { a with StopTimeout := some 0 }) :
    GoJson.encode a ≠ GoJson.encode b ∧
      "StopTimeout" ∉ (GoJson.encode a).keys ∧
      (GoJson.encode b).get? "StopTimeout" = some (Json.num 0) := by
  have hA : "StopTimeout" ∉ (GoJson.encode a).keys := by
    rw [config_encode_def, mem_keys_marshalStruct, config_typeFields_eq]
    simp [emitField, Config.vals, fieldVal, GoJson.isEmptyValue, ha]
  have hB : (GoJson.encode b).get? "StopTimeout" = some (Json.num 0) := by
    have hmem : (⟨"StopTimeout", 23, false, true, false⟩ : EncField) ∈ typeFields Config.decls := by
      rw [config_typeFields_eq]; simp
    have := get?_marshalStruct Config.decls b.vals config_typeFields_nodup _ hmem
    rw [config_encode_def]
    simp only [] at this
    rw [this, hb]
    rfl
  refine ⟨?_, hA, hB⟩
  intro h
  rw [h] at hA
  have hk : "StopTimeout" ∈ (GoJson.encode b).keys := by
    rw [config_encode_def, mem_keys_marshalStruct, config_typeFields_eq]
    refine ⟨⟨"StopTimeout", 23, false, true, false⟩, by simp, rfl, ?_⟩
    rw [hb]; rfl
  exact hA hk

/-- Witness for C2: the zero Config against the zero Config with StopTimeout set to 0. -/
theorem Config.stopTimeout_unset_differs_from_zero_witness :
    GoJson.encode Config.zero ≠ GoJson.encode { Config.zero with StopTimeout := some 0 } ∧
      "StopTimeout" ∉ (GoJson.encode Config.zero).keys ∧
      (GoJson.encode { Config.zero with StopTimeout := some 0 }).get? "StopTimeout"
        = some (Json.num 0) :=
  Config.stopTimeout_unset_differs_from_zero Config.zero _ rfl rfl

/-- C3: in the serialized HealthConfig, Interval and Timeout each appear as the JSON integer
of their nanosecond count when non-zero, and are left out when zero. -/
theorem HealthConfig.durations_nanoseconds_or_absent (h : HealthConfig) :
    (h.Interval ≠ 0 → (GoJson.encode h).get? "Interval" = some (Json.num h.Interval)) ∧
    (h.Interval = 0 → "Interval" ∉ (GoJson.encode h).keys) ∧
    (h.Timeout ≠ 0 → (GoJson.encode h).get? "Timeout" = some (Json.num h.Timeout)) ∧
    (h.Timeout = 0 → "Timeout" ∉ (GoJson.encode h).keys) := by
  have hI : (⟨"Interval", 1, false, true, false⟩ : EncField) ∈ typeFields HealthConfig.decls := by
    rw [healthConfig_typeFields_eq]; simp
  have hT : (⟨"Timeout", 2, false, true, false⟩ : EncField) ∈ typeFields HealthConfig.decls := by
    rw [healthConfig_typeFields_eq]; simp
  have gI := get?_marshalStruct HealthConfig.decls h.vals healthConfig_typeFields_nodup _ hI
  have gT := get?_marshalStruct HealthConfig.decls h.vals healthConfig_typeFields_nodup _ hT
  simp only [] at gI gT
  refine ⟨fun hne => ?_, fun h0 => ?_, fun hne => ?_, fun h0 => ?_⟩
  · rw [healthConfig_encode_def, gI]
    simp [emitField, HealthConfig.vals, fieldVal, GoJson.isEmptyValue, GoJson.encode, hne]
  · rw [healthConfig_encode_def, mem_keys_marshalStruct, healthConfig_typeFields_eq]
    simp [emitField, HealthConfig.vals, fieldVal, GoJson.isEmptyValue, h0]
  · rw [healthConfig_encode_def, gT]
    simp [emitField, HealthConfig.vals, fieldVal, GoJson.isEmptyValue, GoJson.encode, hne]
  · rw [healthConfig_encode_def, mem_keys_marshalStruct, healthConfig_typeFields_eq]
    simp [emitField, HealthConfig.vals, fieldVal, GoJson.isEmptyValue, h0]

/-- Witness for C3: a 30 s interval is written as 30000000000, a zero timeout is left out. -/
theorem HealthConfig.durations_nanoseconds_or_absent_witness :
    (GoJson.encode (⟨.nil, 30000000000, 0, 0⟩ : HealthConfig)).get? "Interval"
        = some (Json.num 30000000000) ∧
      "Timeout" ∉ (GoJson.encode (⟨.nil, 30000000000, 0, 0⟩ : HealthConfig)).keys :=
  ⟨(HealthConfig.durations_nanoseconds_or_absent ⟨.nil, 30000000000, 0, 0⟩).1 (by decide),
   (HealthConfig.durations_nanoseconds_or_absent ⟨.nil, 30000000000, 0, 0⟩).2.2.2 rfl⟩

/-! ## Create-container body -/

theorem createConfig_typeFields_eq : typeFields ContainerCreateConfig.decls =
    [ ⟨"name", 0, true, false, false⟩, ⟨"Config", 1, false, false, false⟩,
      ⟨"HostConfig", 2, false, false, false⟩, ⟨"NetworkingConfig", 3, false, false, false⟩,
      ⟨"AdjustCPUShares", 4, false, false, false⟩ ] := by
  decide

theorem createConfig_encode_def {H N : Type} [GoJson H] [GoJson N]
    (cc : ContainerCreateConfig H N) :
    GoJson.encode cc = marshalStruct ContainerCreateConfig.decls cc.vals := rfl

/-- C4: when the Config of a create-container aggregate has command `l` and no health check,
the serialized body holds that Config under key `Config`, in it `Cmd` is the JSON array of
the strings of `l` in order, and it has no `Healthcheck` key. -/
theorem ContainerCreateConfig.body_has_cmd_and_no_healthcheck {H N : Type} [GoJson H]
    [GoJson N] (cc : ContainerCreateConfig H N) (c : EngineApi.Config) (l : List String)
    (hc : cc.Config = some c) (hcmd : c.Cmd = GoSlice.of l) (hh : c.Healthcheck = none) :
    (GoJson.encode cc).get? "Config" = some (GoJson.encode c) ∧
      (GoJson.encode c).get? "Cmd" = some (Json.arr (l.map Json.str)) ∧
      "Healthcheck" ∉ (GoJson.encode c).keys := by
  refine ⟨?_, ?_, ?_⟩
  · have hmem : (⟨"Config", 1, false, false, false⟩ : EncField)
        ∈ typeFields ContainerCreateConfig.decls := by
      rw [createConfig_typeFields_eq]; simp
    have hnd : ((typeFields ContainerCreateConfig.decls).map EncField.name).Nodup := by
      rw [createConfig_typeFields_eq]; decide
    have := get?_marshalStruct ContainerCreateConfig.decls cc.vals hnd _ hmem
    simp only [] at this
    rw [createConfig_encode_def, this]
    simp [emitField, ContainerCreateConfig.vals, fieldVal, hc, GoJson.encode]
  · have hmem : (⟨"Cmd", 11, false, false, false⟩ : EncField) ∈ typeFields Config.decls := by
      rw [config_typeFields_eq]; simp
    have := get?_marshalStruct Config.decls c.vals config_typeFields_nodup _ hmem
    simp only [] at this
    rw [config_encode_def, this]
    simp [emitField, Config.vals, fieldVal, hcmd, GoJson.encode]
  · rw [config_encode_def, mem_keys_marshalStruct, config_typeFields_eq]
    simp [emitField, Config.vals, fieldVal, GoJson.isEmptyValue, hh]

/-- Witness for C4: name `web-1`, command `nginx -g "daemon off;"`, no health check. -/
theorem ContainerCreateConfig.body_has_cmd_and_no_healthcheck_witness :
    (GoJson.encode ContainerCreateConfig.web1).get? "Config"
        = some (GoJson.encode ContainerCreateConfig.web1Config) ∧
      (GoJson.encode ContainerCreateConfig.web1Config).get? "Cmd"
        = some (Json.arr [Json.str "nginx", Json.str "-g", Json.str "daemon off;"]) ∧
      "Healthcheck" ∉ (GoJson.encode ContainerCreateConfig.web1Config).keys :=
  ContainerCreateConfig.body_has_cmd_and_no_healthcheck ContainerCreateConfig.web1
    ContainerCreateConfig.web1Config ["nginx", "-g", "daemon off;"] rfl rfl rfl

/-! ## Version response -/

/-- C5: `ServerOK` is true exactly when the server-side version record is present. -/
theorem VersionResponse.serverOK_iff_server_present {V : Type} (v : VersionResponse V) :
    v.ServerOK = true ↔ ∃ s, v.Server = some s := by
  unfold VersionResponse.ServerOK
  cases v.Server <;> simp

/-! ## Error responses -/

/-- C6: for every message `m`, ErrorResponse, BadParameterError and InternalServerError
holding `m` all serialize to the one-member object with key `message` and value `m`;
the member is written for the empty message too. -/
theorem ErrorResponse.same_single_message_object (m : String) :
    GoJson.encode (ErrorResponse.mk m) = Json.obj [("message", Json.str m)] ∧
      GoJson.encode (BadParameterError.mk m) = Json.obj [("message", Json.str m)] ∧
      GoJson.encode (InternalServerError.mk m) = Json.obj [("message", Json.str m)] := by
  have htf : typeFields ErrorResponse.decls = [⟨"message", 0, true, false, false⟩] := by decide
  refine ⟨?_, ?_, ?_⟩ <;>
    simp [GoJson.encode, marshalStruct, BadParameterError.decls, InternalServerError.decls,
      htf, emitField, fieldVal]

/-! ## Hijacked connections -/

/-- C7: when the connection implements `CloseWrite`, the call invokes it exactly once and
returns exactly its result (the reader is untouched); when it does not, the call issues
no call, returns no error and leaves the response as it was. -/
theorem HijackedResponse.closeWrite_delegates_or_noop {σ ρ : Type} (h : HijackedResponse σ ρ) :
    (∀ closeWrite, h.Conn.CloseWrite = some closeWrite →
      h.CloseWrite.1 = (closeWrite h.Conn.state).2 ∧
      h.CloseWrite.2.2 = [ConnCall.CloseWrite] ∧
      h.CloseWrite.2.1.Conn.state = (closeWrite h.Conn.state).1 ∧
      h.CloseWrite.2.1.Reader = h.Reader) ∧
    (h.Conn.CloseWrite = none → h.CloseWrite = (none, h, [])) := by
  constructor
  · intro f hf
    simp [HijackedResponse.CloseWrite, hf]
  · intro hn
    simp [HijackedResponse.CloseWrite, hn]

/-- Witness for C7: a connection that counts its half-closes, and one without `CloseWrite`. -/
theorem HijackedResponse.closeWrite_delegates_or_noop_witness :
    (HijackedResponse.CloseWrite
        (⟨⟨0, fun n => (n, none), some fun n => (n + 1, some "EPIPE")⟩, ()⟩ :
          HijackedResponse Nat Unit)).1 = some "EPIPE" ∧
      (HijackedResponse.CloseWrite
        (⟨⟨0, fun n => (n, none), none⟩, ()⟩ : HijackedResponse Nat Unit))
        = (none, ⟨⟨0, fun n => (n, none), none⟩, ()⟩, []) :=
  ⟨((HijackedResponse.closeWrite_delegates_or_noop
      (⟨⟨0, fun n => (n, none), some fun n => (n + 1, some "EPIPE")⟩, ()⟩ :
        HijackedResponse Nat Unit)).1 _ rfl).1,
   (HijackedResponse.closeWrite_delegates_or_noop
      (⟨⟨0, fun n => (n, none), none⟩, ()⟩ : HijackedResponse Nat Unit)).2 rfl⟩

/-! ## Wire keys of option fields -/

/-- C8: every field of a struct of the package that carries a filter expression has wire
key `filters`, its tag being `filters` or the legacy `filters,string`; the structs with
such a field are the container, events, network, image, image-search, node, service, task
and volume list options. -/
theorem filter_fields_use_key_filters :
    (∀ s ∈ packageStructs, ∀ d ∈ s.fields, d.isFilter = true →
        d.wireKey = "filters" ∧ (d.tag = "filters" ∨ d.tag = "filters,string")) ∧
      structsWithFilter packageStructs =
        ["ContainerListOptions", "EventsOptions", "NetworkListOptions", "ImageListOptions",
         "ImageSearchOptions", "NodeListOptions", "ServiceListOptions", "TaskListOptions",
         "VolumeListOptions"] := by
  decide

/-- Witness for C8: the `Filter` field of `ContainerListOptions`. -/
theorem filter_fields_use_key_filters_witness :
    FieldDecl.wireKey ⟨"Filter", .map, "filters.Args", "filters,string"⟩ = "filters" :=
  (filter_fields_use_key_filters.1 ⟨"ContainerListOptions", ContainerListOptions.decls⟩
    (by decide) ⟨"Filter", .map, "filters.Args", "filters,string"⟩ (by decide) (by decide)).1

/-- C9: the wire keys of the build Tags, the resize Height and Width, and the
container-remove RemoveVolumes, RemoveLinks and Force fields are `t`, `h`, `w`, `v`, `link`
and `force`, none of them the Go field name. -/
theorem short_query_keys :
    wireKeyOf packageStructs "ImageBuildOptions" "Tags" = some "t" ∧
    wireKeyOf packageStructs "ResizeOptions" "Height" = some "h" ∧
    wireKeyOf packageStructs "ResizeOptions" "Width" = some "w" ∧
    wireKeyOf packageStructs "ContainerRemoveOptions" "RemoveVolumes" = some "v" ∧
    wireKeyOf packageStructs "ContainerRemoveOptions" "RemoveLinks" = some "link" ∧
    wireKeyOf packageStructs "ContainerRemoveOptions" "Force" = some "force" ∧
    wireKeyOf packageStructs "ImageBuildOptions" "Tags" ≠ some "Tags" ∧
    wireKeyOf packageStructs "ResizeOptions" "Height" ≠ some "Height" ∧
    wireKeyOf packageStructs "ResizeOptions" "Width" ≠ some "Width" ∧
    wireKeyOf packageStructs "ContainerRemoveOptions" "RemoveVolumes" ≠ some "RemoveVolumes" ∧
    wireKeyOf packageStructs "ContainerRemoveOptions" "RemoveLinks" ≠ some "RemoveLinks" ∧
    wireKeyOf packageStructs "ContainerRemoveOptions" "Force" ≠ some "Force" := by
  decide

/-! ## Filter codec round trip -/

namespace filters

theorem hex4_hexDigit : ∀ n, n < 32 →
    hex4 '0' '0' (hexDigit (n / 16)) (hexDigit (n % 16)) = some n := by
  decide

/-- Every character is written as a backslash escape or as itself. -/
theorem parseStringBody_escapeChar (fuel : Nat) (c : Char) (rest : List Char) :
    parseStringBody (fuel + 1) (escapeChar c ++ rest) = consTo c (parseStringBody fuel rest) := by
  unfold escapeChar
  by_cases hq : c = quote
  · subst hq
    have h1 : backslash ≠ quote := by decide
    have h2 : quote ≠ 'u' := by decide
    have h3 : unescape quote = some quote := by decide
    rw [if_pos rfl, List.cons_append, List.cons_append, List.nil_append, parseStringBody]
    simp only [if_neg h1, if_true, parseEscape, if_neg h2, h3, Option.map_some']
  · by_cases hb : c = backslash
    · subst hb
      have h2 : backslash ≠ 'u' := by decide
      have h3 : unescape backslash = some backslash := by decide
      rw [if_neg hq, if_pos rfl, List.cons_append, List.cons_append, List.nil_append,
        parseStringBody]
      simp only [if_neg hq, if_true, parseEscape, if_neg h2, h3, Option.map_some']
    · by_cases hc : c.toNat < 32
      · have h1 : backslash ≠ quote := by decide
        simp only [if_neg hq, if_neg hb, if_pos hc, List.cons_append, List.nil_append]
        rw [parseStringBody]
        simp only [if_neg h1, if_true, parseEscape, hex4_hexDigit _ hc]
        have hlt : c.toNat < 0xD800 ∨ 0xE000 ≤ c.toNat := Or.inl (by omega)
        rw [if_pos hlt, Char.ofNat_toNat]
      · simp only [if_neg hq, if_neg hb, if_neg hc, List.cons_append, List.nil_append]
        rw [parseStringBody]
        simp only [if_neg hq, if_neg hb, if_neg hc]

theorem parseStringBody_render (rest : List Char) : ∀ (s : List Char) (fuel : Nat),
    s.length < fuel →
    parseStringBody fuel (s.flatMap escapeChar ++ quote :: rest) = some (s, rest)
  | [], fuel + 1, _ => by
    rw [List.flatMap_nil, List.nil_append, parseStringBody, if_pos rfl]
  | c :: s, fuel + 1, h => by
    have hs : s.length < fuel := by simpa using h
    rw [List.flatMap_cons, List.append_assoc, parseStringBody_escapeChar,
      parseStringBody_render rest s fuel hs]
    rfl

theorem escapeChar_length (c : Char) : 1 ≤ (escapeChar c).length := by
  unfold escapeChar
  split_ifs <;> simp

theorem length_le_flatMap_escapeChar : ∀ s : List Char,
    s.length ≤ (s.flatMap escapeChar).length
  | [] => by simp
  | c :: s => by
    have h1 := escapeChar_length c
    have h2 := length_le_flatMap_escapeChar s
    rw [List.flatMap_cons, List.length_append, List.length_cons]
    omega

theorem parseString_render (s : String) (rest : List Char) :
    parseString (renderString s ++ rest) = some (s, rest) := by
  have hlen : s.data.length < (s.data.flatMap escapeChar ++ quote :: rest).length := by
    have := length_le_flatMap_escapeChar s.data
    rw [List.length_append, List.length_cons]
    omega
  simp only [renderString, List.cons_append, List.append_assoc, List.singleton_append,
    List.nil_append, parseString, if_true]
  rw [parseStringBody_render rest s.data _ hlen]
  rfl

/-- Text that starts with a character other than whitespace is left as it is. -/
theorem skipWs_cons {c : Char} (h : isWs c = false) (cs : List Char) :
    skipWs (c :: cs) = c :: cs := by
  simp [skipWs, h]

theorem renderString_head (s : String) :
    renderString s = quote :: (s.data.flatMap escapeChar ++ [quote]) := rfl

theorem renderElems_head (v : String) (vs : List String) :
    ∃ t, renderElems (v :: vs) = quote :: t := by
  cases vs with
  | nil => exact ⟨_, by rw [renderElems, renderString_head]; rfl⟩
  | cons w ws => exact ⟨_, by rw [renderElems, renderString_head]; rfl⟩

theorem renderMembers_head (e : String × List String) (es : Args) :
    ∃ t, renderMembers (e :: es) = quote :: t := by
  cases es with
  | nil => exact ⟨_, by rw [renderMembers, renderString_head]; rfl⟩
  | cons f fs => exact ⟨_, by rw [renderMembers, renderString_head]; rfl⟩

theorem isWs_quote : isWs quote = false := by decide

theorem parseElems_render (rest : List Char) : ∀ (vs : List String) (fuel : Nat),
    vs ≠ [] → vs.length ≤ fuel →
    parseElems fuel (renderElems vs ++ rest) = some (vs, rest)
  | [], _, h, _ => absurd rfl h
  | [v], fuel + 1, _, _ => by
    have hc : (']' : Char) ≠ ',' := by decide
    rw [renderElems, List.append_assoc, parseElems]
    simp only [parseString_render, List.singleton_append]
    rw [skipWs_cons (by decide)]
    simp only [if_neg hc, if_true]
  | v :: w :: vs, fuel + 1, _, hlen => by
    have hl : (w :: vs).length ≤ fuel := by simpa using hlen
    obtain ⟨t, ht⟩ := renderElems_head w vs
    rw [renderElems, List.append_assoc, parseElems]
    simp only [parseString_render, List.cons_append]
    rw [skipWs_cons (by decide)]
    simp only [if_true]
    have hskip : skipWs (renderElems (w :: vs) ++ rest) = renderElems (w :: vs) ++ rest := by
      rw [ht, List.cons_append, skipWs_cons isWs_quote]
    rw [hskip, parseElems_render rest (w :: vs) fuel (by simp) hl]
    rfl

theorem parseArray_render (rest : List Char) (vs : List String) (bound : Nat)
    (h : vs.length ≤ bound) :
    parseArray bound ('[' :: (renderElems vs ++ rest)) = some (vs, rest) := by
  cases vs with
  | nil =>
    rw [parseArray, if_pos rfl, renderElems, List.singleton_append, skipWs_cons (by decide)]
    simp only [if_true]
  | cons v vs =>
    obtain ⟨t, ht⟩ := renderElems_head v vs
    have hq : quote ≠ ']' := by decide
    have hp := parseElems_render rest (v :: vs) bound (by simp) h
    rw [parseArray, if_pos rfl]
    rw [ht, List.cons_append] at hp ⊢
    rw [skipWs_cons isWs_quote]
    simp only [if_neg hq]
    exact hp

theorem parseMembers_render (bound : Nat) (rest : List Char) : ∀ (ms : Args) (fuel : Nat),
    ms ≠ [] → ms.length ≤ fuel → (∀ e ∈ ms, e.2.length ≤ bound) →
    parseMembers bound fuel (renderMembers ms ++ rest) = some (ms, rest)
  | [], _, h, _, _ => absurd rfl h
  | [e], fuel + 1, _, _, hb => by
    have hc : ('\x7d' : Char) ≠ ',' := by decide
    have he : e.2.length ≤ bound := hb e (by simp)
    rw [renderMembers, List.append_assoc, parseMembers]
    simp only [parseString_render, List.cons_append, List.append_assoc, List.singleton_append]
    rw [skipWs_cons (by decide)]
    simp only [if_true]
    rw [skipWs_cons (by decide), parseArray_render _ _ _ he]
    simp only []
    rw [skipWs_cons (by decide)]
    simp only [if_neg hc, if_true]
    rfl
  | e :: f :: es, fuel + 1, _, hlen, hb => by
    have hl : (f :: es).length ≤ fuel := by simpa using hlen
    have he : e.2.length ≤ bound := hb e (by simp)
    have hb2 : ∀ x ∈ f :: es, x.2.length ≤ bound := fun x hx => hb x (List.mem_cons_of_mem _ hx)
    obtain ⟨t, ht⟩ := renderMembers_head f es
    have hskip : skipWs (renderMembers (f :: es) ++ rest) = renderMembers (f :: es) ++ rest := by
      rw [ht, List.cons_append, skipWs_cons isWs_quote]
    rw [renderMembers, List.append_assoc, parseMembers]
    simp only [parseString_render, List.cons_append, List.append_assoc]
    rw [skipWs_cons (by decide)]
    simp only [if_true]
    rw [skipWs_cons (by decide), parseArray_render _ _ _ he]
    simp only []
    rw [skipWs_cons (by decide)]
    simp only [if_true]
    rw [hskip, parseMembers_render bound rest (f :: es) fuel (by simp) hl hb2]
    rfl

theorem renderElems_length : ∀ vs : List String, vs.length ≤ (renderElems vs).length
  | [] => by simp
  | [v] => by simp [renderElems]
  | v :: w :: vs => by
    have := renderElems_length (w :: vs)
    rw [renderElems, List.length_append, List.length_cons]
    simp only [List.length_cons] at this ⊢
    omega

theorem renderMembers_length : ∀ ms : Args,
    ms.length ≤ (renderMembers ms).length ∧ ∀ e ∈ ms, e.2.length ≤ (renderMembers ms).length
  | [] => by simp
  | [e] => by
    have := renderElems_length e.2
    simp only [renderMembers, List.length_append, List.length_cons, List.length_singleton,
      List.length_nil, List.mem_singleton, forall_eq]
    omega
  | e :: f :: es => by
    have h1 := renderElems_length e.2
    obtain ⟨h2, h3⟩ := renderMembers_length (f :: es)
    simp only [renderMembers, List.length_append, List.length_cons] at h2 h3 ⊢
    refine ⟨by omega, ?_⟩
    intro x hx
    rcases List.mem_cons.mp hx with rfl | hx
    · omega
    · have := h3 x hx
      omega

theorem put_fresh : ∀ (acc : Args) (k : String) (set : List String),
    k ∉ acc.map Prod.fst → put acc k set = acc ++ [(k, set)]
  | [], _, _, _ => rfl
  | (k', vs) :: acc, k, set, h => by
    rw [List.map_cons, List.mem_cons, not_or] at h
    rw [put, if_neg (fun e => h.1 e.symm), put_fresh acc k set h.2]
    rfl

theorem Add_last : ∀ (acc : Args) (k : String) (vs : List String) (v : String),
    k ∉ acc.map Prod.fst → Add (acc ++ [(k, vs)]) k v = acc ++ [(k, setInsert vs v)]
  | [], k, vs, v, _ => by
    rw [List.nil_append, Add, if_pos rfl]
    rfl
  | (k', vs') :: acc, k, vs, v, h => by
    rw [List.map_cons, List.mem_cons, not_or] at h
    rw [List.cons_append, Add, if_neg (fun e => h.1 e.symm), Add_last acc k vs v h.2]
    rfl

theorem foldl_Add_fresh (acc : Args) (k : String) (hk : k ∉ acc.map Prod.fst) :
    ∀ (ws vs : List String), (vs ++ ws).Nodup →
      ws.foldl (fun m v => Add m k v) (acc ++ [(k, vs)]) = acc ++ [(k, vs ++ ws)]
  | [], vs, _ => by simp
  | w :: ws, vs, h => by
    have hw : w ∉ vs := by
      intro hmem
      have := List.nodup_append.mp h
      exact this.2.2 hmem (List.mem_cons_self w ws)
    have h2 : ((vs ++ [w]) ++ ws).Nodup := by simpa using h
    rw [List.foldl_cons, Add_last acc k vs w hk]
    simp only [setInsert, if_neg hw]
    rw [foldl_Add_fresh acc k hk ws (vs ++ [w]) h2]
    simp

theorem foldl_build : ∀ (ms acc : Args), ((acc ++ ms).map Prod.fst).Nodup →
    (∀ e ∈ ms, e.2.Nodup) →
    ms.foldl (fun m e => e.2.foldl (fun m v => Add m e.1 v) (put m e.1 [])) acc = acc ++ ms
  | [], acc, _, _ => by simp
  | e :: ms, acc, hnd, hv => by
    have hk : e.1 ∉ acc.map Prod.fst := by
      intro hmem
      rw [List.map_append, List.map_cons] at hnd
      exact (List.nodup_append.mp hnd).2.2 hmem (List.mem_cons_self _ _)
    have hnd2 : (((acc ++ [e]) ++ ms).map Prod.fst).Nodup := by simpa using hnd
    have hstep : e.2.foldl (fun m v => Add m e.1 v) (put acc e.1 []) = acc ++ [e] := by
      rw [put_fresh acc e.1 [] hk, foldl_Add_fresh acc e.1 hk e.2 [] (by simpa using hv e (by simp))]
      rfl
    rw [List.foldl_cons, hstep,
      foldl_build ms (acc ++ [e]) hnd2 (fun x hx => hv x (List.mem_cons_of_mem _ hx))]
    simp

theorem build_valid (m : Args) (h : m.Valid) : build m = m := by
  have := foldl_build m [] (by simpa using h.1) h.2
  simpa [build] using this

/-- C10: for every valid filter expression `m`, decoding the JSON text that `Encode`
produces for `m` succeeds and yields `m` again. -/
theorem decode_encode (m : Args) (h : m.Valid) : Decode (Encode m) = Except.ok m := by
  have hb : isWs '\x7b' = false := by decide
  unfold Decode Encode
  simp only []
  rw [skipWs_cons hb, parseObject, if_pos rfl]
  cases m with
  | nil =>
    rw [renderMembers, skipWs_cons (by decide)]
    simp only [if_true]
    rfl
  | cons e es =>
    obtain ⟨t, ht⟩ := renderMembers_head e es
    obtain ⟨h1, h2⟩ := renderMembers_length (e :: es)
    have hq : quote ≠ '\x7d' := by decide
    have hp := parseMembers_render (('\x7b' :: renderMembers (e :: es)).length) []
      (e :: es) (('\x7b' :: renderMembers (e :: es)).length) (by simp)
      (by simp only [List.length_cons] at h1 ⊢; omega)
      (fun x hx => by have := h2 x hx; simp only [List.length_cons] at this ⊢; omega)
    rw [List.append_nil] at hp
    rw [ht] at hp ⊢
    rw [skipWs_cons isWs_quote]
    simp only [if_neg hq]
    rw [hp]
    simp only [skipWs, if_true]
    rw [build_valid _ h]

/-- Witness for C10: the list-images filter `dangling=true`. -/
theorem decode_encode_witness :
    Args.Valid [("dangling", ["true"])] ∧
      Encode [("dangling", ["true"])] = "\x7b\"dangling\":[\"true\"]\x7d" ∧
      Decode (Encode [("dangling", ["true"])]) = Except.ok [("dangling", ["true"])] :=
  ⟨by decide, by decide, decode_encode [("dangling", ["true"])] (by decide)⟩

end filters
/-! ## Health-check test arrays -/

/-- C11 (as stated) fails: the package has no validator for the test array, so arrays
outside the four documented forms, `["BOGUS"]` and `["CMD-SHELL", "x", "y"]`, are not
rejected but written unchanged under key `Test`. -/
theorem HealthConfig.malformed_test_is_transmitted :
    (GoJson.encode (⟨.of ["BOGUS"], 0, 0, 0⟩ : HealthConfig)).get? "Test"
        = some (Json.arr [Json.str "BOGUS"]) ∧
      (GoJson.encode (⟨.of ["CMD-SHELL", "x", "y"], 0, 0, 0⟩ : HealthConfig)).get? "Test"
        = some (Json.arr [Json.str "CMD-SHELL", Json.str "x", Json.str "y"]) := by
  have hT : (⟨"Test", 0, false, true, false⟩ : EncField) ∈ typeFields HealthConfig.decls := by
    rw [healthConfig_typeFields_eq]; simp
  constructor <;>
    (rw [healthConfig_encode_def]
     exact (get?_marshalStruct HealthConfig.decls _ healthConfig_typeFields_nodup _ hT).trans rfl)

/-- C11 (amended): the package does not validate a health-check test array. Every array,
of one of the four documented forms or not, is accepted: a non-empty array is written
unchanged under key `Test` and an empty one is left out, so `[]` and `["NONE"]` are
serialized differently and stay distinct settings. -/
theorem HealthConfig.test_array_written_unvalidated (h : HealthConfig) (l : List String)
    (hl : h.Test = GoSlice.of l) :
    (l ≠ [] → (GoJson.encode h).get? "Test" = some (Json.arr (l.map Json.str))) ∧
    (l = [] → "Test" ∉ (GoJson.encode h).keys) ∧
    (l = [] → ∀ h' : HealthConfig, h'.Test = GoSlice.of ["NONE"] →
      GoJson.encode h ≠ GoJson.encode h') := by
  have hT : (⟨"Test", 0, false, true, false⟩ : EncField) ∈ typeFields HealthConfig.decls := by
    rw [healthConfig_typeFields_eq]; simp
  have gT : ∀ x : HealthConfig, (GoJson.encode x).get? "Test"
      = (emitField x.vals ⟨"Test", 0, false, true, false⟩).map Prod.snd := fun x =>
    get?_marshalStruct HealthConfig.decls x.vals healthConfig_typeFields_nodup _ hT
  refine ⟨fun hne => ?_, fun hnil => ?_, fun hnil h' hn heq => ?_⟩
  · rw [gT]
    simp [emitField, HealthConfig.vals, fieldVal, GoJson.isEmptyValue, GoJson.encode, hl,
      GoSlice.len, hne]
  · rw [healthConfig_encode_def, mem_keys_marshalStruct, healthConfig_typeFields_eq]
    simp [emitField, HealthConfig.vals, fieldVal, GoJson.isEmptyValue, hl, GoSlice.len, hnil]
  · have h1 : (GoJson.encode h).get? "Test" = none := by
      rw [gT]
      simp [emitField, HealthConfig.vals, fieldVal, GoJson.isEmptyValue, hl, GoSlice.len, hnil]
    have h2 : (GoJson.encode h').get? "Test" = some (Json.arr [Json.str "NONE"]) := by
      rw [gT]
      simp [emitField, HealthConfig.vals, fieldVal, GoJson.isEmptyValue, GoJson.encode, hn,
        GoSlice.len]
    rw [heq, h2] at h1
    exact absurd h1 (by simp)

/-- Witness for C11 (amended): a `CMD` test is written as given; an empty test is left out
and differs from `["NONE"]`. -/
theorem HealthConfig.test_array_written_unvalidated_witness :
    (GoJson.encode (⟨.of ["CMD", "curl", "-f", "http://localhost/"], 0, 0, 0⟩ :
        HealthConfig)).get? "Test"
        = some (Json.arr [Json.str "CMD", Json.str "curl", Json.str "-f",
            Json.str "http://localhost/"]) ∧
      GoJson.encode (⟨.of [], 0, 0, 0⟩ : HealthConfig)
        ≠ GoJson.encode (⟨.of ["NONE"], 0, 0, 0⟩ : HealthConfig) :=
  ⟨(HealthConfig.test_array_written_unvalidated
      ⟨.of ["CMD", "curl", "-f", "http://localhost/"], 0, 0, 0⟩ _ rfl).1 (by decide),
   (HealthConfig.test_array_written_unvalidated ⟨.of [], 0, 0, 0⟩ [] rfl).2.2 rfl
      ⟨.of ["NONE"], 0, 0, 0⟩ rfl⟩

/-! ## Detach keys -/

theorem attachOptions_typeFields_eq : typeFields ContainerAttachOptions.decls =
    [ ⟨"id", 0, true, false, false⟩, ⟨"logs", 1, true, false, false⟩,
      ⟨"stream", 2, true, false, false⟩, ⟨"stdin", 3, true, false, false⟩,
      ⟨"stdout", 4, true, false, false⟩, ⟨"stderr", 5, true, false, false⟩,
      ⟨"detachKeys", 6, true, false, false⟩ ] := by
  decide

theorem stopOptions_typeFields_eq : typeFields ContainerStopOptions.decls =
    [ ⟨"id", 0, true, false, false⟩, ⟨"detachKeys", 1, true, false, false⟩ ] := by
  decide

theorem execConfig_typeFields_eq : typeFields ExecConfig.decls =
    [ ⟨"User", 0, false, false, false⟩, ⟨"Privileged", 1, false, false, false⟩,
      ⟨"Tty", 2, false, false, false⟩, ⟨"AttachStdin", 3, false, false, false⟩,
      ⟨"AttachStderr", 4, false, false, false⟩, ⟨"AttachStdout", 5, false, false, false⟩,
      ⟨"Detach", 6, false, false, false⟩, ⟨"DetachKeys", 7, false, false, false⟩,
      ⟨"Cmd", 8, false, false, false⟩ ] := by
  decide

theorem attachOptions_get_detachKeys (o : ContainerAttachOptions) :
    (GoJson.encode o).get? "detachKeys" = some (Json.str o.DetachKeys) := by
  have hm : (⟨"detachKeys", 6, true, false, false⟩ : EncField)
      ∈ typeFields ContainerAttachOptions.decls := by
    rw [attachOptions_typeFields_eq]; simp
  have hnd : ((typeFields ContainerAttachOptions.decls).map EncField.name).Nodup := by
    rw [attachOptions_typeFields_eq]; decide
  exact (get?_marshalStruct ContainerAttachOptions.decls o.vals hnd _ hm).trans rfl

theorem stopOptions_get_detachKeys (o : ContainerStopOptions) :
    (GoJson.encode o).get? "detachKeys" = some (Json.str o.DetachKeys) := by
  have hm : (⟨"detachKeys", 1, true, false, false⟩ : EncField)
      ∈ typeFields ContainerStopOptions.decls := by
    rw [stopOptions_typeFields_eq]; simp
  have hnd : ((typeFields ContainerStopOptions.decls).map EncField.name).Nodup := by
    rw [stopOptions_typeFields_eq]; decide
  exact (get?_marshalStruct ContainerStopOptions.decls o.vals hnd _ hm).trans rfl

theorem execConfig_get_detachKeys (e : ExecConfig) :
    (GoJson.encode e).get? "DetachKeys" = some (Json.str e.DetachKeys) := by
  have hm : (⟨"DetachKeys", 7, false, false, false⟩ : EncField)
      ∈ typeFields ExecConfig.decls := by
    rw [execConfig_typeFields_eq]; simp
  have hnd : ((typeFields ExecConfig.decls).map EncField.name).Nodup := by
    rw [execConfig_typeFields_eq]; decide
  exact (get?_marshalStruct ExecConfig.decls e.vals hnd _ hm).trans rfl

/-- C12 (as stated) fails: the package has no detach-key validator, so the strings
`ctrl-1`, `ab` and the empty string are not rejected but written unchanged under key
`detachKeys`. -/
theorem ContainerAttachOptions.malformed_detachKeys_is_transmitted :
    (GoJson.encode (⟨"c1", false, true, true, true, true, "ctrl-1"⟩ :
        ContainerAttachOptions)).get? "detachKeys" = some (Json.str "ctrl-1") ∧
      (GoJson.encode (⟨"c1", "ab"⟩ : ContainerStopOptions)).get? "detachKeys"
        = some (Json.str "ab") ∧
      (GoJson.encode (⟨"c1", ""⟩ : ContainerStopOptions)).get? "detachKeys"
        = some (Json.str "") :=
  ⟨attachOptions_get_detachKeys _, stopOptions_get_detachKeys _, stopOptions_get_detachKeys _⟩

/-- C12 (amended): the package does not validate a detach-key override. Every string, a
single letter or `ctrl-<value>` or anything else, is accepted and written unchanged: under
key `detachKeys` by the attach and stop options, under key `DetachKeys` by ExecConfig. -/
theorem ContainerAttachOptions.detachKeys_written_unvalidated (a : ContainerAttachOptions)
    (s : ContainerStopOptions) (e : ExecConfig) :
    (GoJson.encode a).get? "detachKeys" = some (Json.str a.DetachKeys) ∧
      (GoJson.encode s).get? "detachKeys" = some (Json.str s.DetachKeys) ∧
      (GoJson.encode e).get? "DetachKeys" = some (Json.str e.DetachKeys) :=
  ⟨attachOptions_get_detachKeys a, stopOptions_get_detachKeys s, execConfig_get_detachKeys e⟩

/-! ## Container configuration: the omitempty keys -/

theorem string_length_eq_zero_iff (s : String) : s.length = 0 ↔ s = "" := by
  constructor
  · intro h
    have hd : s.data = [] := List.length_eq_zero.mp h
    cases s
    simp only at hd
    subst hd
    rfl
  · rintro rfl
    rfl

theorem config_omitempty_keys_iff (c : Config) :
    ("ExposedPorts" ∈ (GoJson.encode c).keys ↔ c.ExposedPorts.len ≠ 0) ∧
    ("Healthcheck" ∈ (GoJson.encode c).keys ↔ c.Healthcheck ≠ none) ∧
    ("ArgsEscaped" ∈ (GoJson.encode c).keys ↔ c.ArgsEscaped = true) ∧
    ("NetworkDisabled" ∈ (GoJson.encode c).keys ↔ c.NetworkDisabled = true) ∧
    ("MacAddress" ∈ (GoJson.encode c).keys ↔ c.MacAddress ≠ "") ∧
    ("StopSignal" ∈ (GoJson.encode c).keys ↔ c.StopSignal ≠ "") ∧
    ("StopTimeout" ∈ (GoJson.encode c).keys ↔ c.StopTimeout ≠ none) ∧
    ("Shell" ∈ (GoJson.encode c).keys ↔ c.Shell.len ≠ 0) := by
  rw [config_encode_def]
  simp only [mem_keys_marshalStruct, config_typeFields_eq]
  simp [emitField, Config.vals, fieldVal, GoJson.isEmptyValue, string_length_eq_zero_iff]

/-- C13: in the serialized Config each of the keys ExposedPorts, Healthcheck, ArgsEscaped,
NetworkDisabled, MacAddress, StopSignal, StopTimeout and Shell appears exactly when its
field is set (non-empty map, list or string; true; a present pointer); two Configs that
agree on such a field agree on whether its key appears, whatever their other fields hold. -/
theorem Config.omitempty_key_present_iff_set (c c' : Config) :
    (
    ("ExposedPorts" ∈ (GoJson.encode c).keys ↔ c.ExposedPorts.len ≠ 0) ∧
    ("Healthcheck" ∈ (GoJson.encode c).keys ↔ c.Healthcheck ≠ none) ∧
    ("ArgsEscaped" ∈ (GoJson.encode c).keys ↔ c.ArgsEscaped = true) ∧
    ("NetworkDisabled" ∈ (GoJson.encode c).keys ↔ c.NetworkDisabled = true) ∧
    ("MacAddress" ∈ (GoJson.encode c).keys ↔ c.MacAddress ≠ "") ∧
    ("StopSignal" ∈ (GoJson.encode c).keys ↔ c.StopSignal ≠ "") ∧
    ("StopTimeout" ∈ (GoJson.encode c).keys ↔ c.StopTimeout ≠ none) ∧
    ("Shell" ∈ (GoJson.encode c).keys ↔ c.Shell.len ≠ 0)) ∧
    (c.ExposedPorts = c'.ExposedPorts →
      ("ExposedPorts" ∈ (GoJson.encode c).keys ↔ "ExposedPorts" ∈ (GoJson.encode c').keys)) ∧
    (c.Healthcheck = c'.Healthcheck →
      ("Healthcheck" ∈ (GoJson.encode c).keys ↔ "Healthcheck" ∈ (GoJson.encode c').keys)) ∧
    (c.ArgsEscaped = c'.ArgsEscaped →
      ("ArgsEscaped" ∈ (GoJson.encode c).keys ↔ "ArgsEscaped" ∈ (GoJson.encode c').keys)) ∧
    (c.NetworkDisabled = c'.NetworkDisabled →
      ("NetworkDisabled" ∈ (GoJson.encode c).keys ↔ "NetworkDisabled" ∈ (GoJson.encode c').keys)) ∧
    (c.MacAddress = c'.MacAddress →
      ("MacAddress" ∈ (GoJson.encode c).keys ↔ "MacAddress" ∈ (GoJson.encode c').keys)) ∧
    (c.StopSignal = c'.StopSignal →
      ("StopSignal" ∈ (GoJson.encode c).keys ↔ "StopSignal" ∈ (GoJson.encode c').keys)) ∧
    (c.StopTimeout = c'.StopTimeout →
      ("StopTimeout" ∈ (GoJson.encode c).keys ↔ "StopTimeout" ∈ (GoJson.encode c').keys)) ∧
    (c.Shell = c'.Shell →
      ("Shell" ∈ (GoJson.encode c).keys ↔ "Shell" ∈ (GoJson.encode c').keys)) := by
  have h := config_omitempty_keys_iff c
  have h' := config_omitempty_keys_iff c'
  obtain ⟨a1, a2, a3, a4, a5, a6, a7, a8⟩ := h
  obtain ⟨b1, b2, b3, b4, b5, b6, b7, b8⟩ := h'
  refine ⟨⟨a1, a2, a3, a4, a5, a6, a7, a8⟩, ?_, ?_, ?_, ?_, ?_, ?_, ?_, ?_⟩
  · intro e; rw [a1, b1, e]
  · intro e; rw [a2, b2, e]
  · intro e; rw [a3, b3, e]
  · intro e; rw [a4, b4, e]
  · intro e; rw [a5, b5, e]
  · intro e; rw [a6, b6, e]
  · intro e; rw [a7, b7, e]
  · intro e; rw [a8, b8, e]

/-- Witness for C13: a StopTimeout of 0 is a present pointer, so its key appears; changing
the Hostname does not change whether `MacAddress` appears. -/
theorem Config.omitempty_key_present_iff_set_witness :
    "StopTimeout" ∈ (GoJson.encode { Config.zero with StopTimeout := some 0 }).keys ∧
      ("MacAddress" ∈ (GoJson.encode Config.zero).keys ↔
        "MacAddress" ∈ (GoJson.encode { Config.zero with Hostname := "web" }).keys) :=
  ⟨(Config.omitempty_key_present_iff_set { Config.zero with StopTimeout := some 0 }
      Config.zero).1.2.2.2.2.2.2.1.mpr (by simp),
   (Config.omitempty_key_present_iff_set Config.zero
      { Config.zero with Hostname := "web" }).2.2.2.2.2.1 rfl⟩

/-! ## Log options -/

theorem logsOptions_typeFields_eq : typeFields ContainerLogsOptions.decls =
    [ ⟨"id", 0, true, false, false⟩, ⟨"stdout", 1, true, false, false⟩,
      ⟨"stdin", 2, true, false, false⟩, ⟨"since", 3, true, false, false⟩,
      ⟨"timestamps", 4, true, false, false⟩, ⟨"follow", 5, true, false, false⟩,
      ⟨"tail", 6, true, false, false⟩, ⟨"details", 7, true, false, false⟩ ] := by
  decide

/-- C14 fails on the code: `ShowStdout` is tagged `stdout`, but `ShowStderr` is tagged
`stdin`, not `stderr` as the attach options tag their `Stderr`; log options asking for
stderr are written with `stdin: true` and without any `stderr` key. -/
theorem ContainerLogsOptions.showStderr_written_under_stdin :
    wireKeyOf packageStructs "ContainerLogsOptions" "ShowStdout" = some "stdout" ∧
    wireKeyOf packageStructs "ContainerLogsOptions" "ShowStderr" = some "stdin" ∧
    wireKeyOf packageStructs "ContainerAttachOptions" "Stdout" = some "stdout" ∧
    wireKeyOf packageStructs "ContainerAttachOptions" "Stderr" = some "stderr" ∧
    (GoJson.encode (⟨"c1", false, true, "", false, false, "", false⟩ :
        ContainerLogsOptions)).get? "stdin" = some (Json.bool true) ∧
    "stderr" ∉ (GoJson.encode (⟨"c1", false, true, "", false, false, "", false⟩ :
        ContainerLogsOptions)).keys := by
  have hm : (⟨"stdin", 2, true, false, false⟩ : EncField)
      ∈ typeFields ContainerLogsOptions.decls := by
    rw [logsOptions_typeFields_eq]; simp
  have hnd : ((typeFields ContainerLogsOptions.decls).map EncField.name).Nodup := by
    rw [logsOptions_typeFields_eq]; decide
  refine ⟨by decide, by decide, by decide, by decide, ?_, ?_⟩
  · exact (get?_marshalStruct ContainerLogsOptions.decls _ hnd _ hm).trans rfl
  · show "stderr" ∉ (marshalStruct ContainerLogsOptions.decls _).keys
    rw [mem_keys_marshalStruct, logsOptions_typeFields_eq]
    simp

/-! ## Key collisions -/

/-- C15: in every struct declared in the package the effective wire keys of the fields are
pairwise distinct, and the fields the encoder emits are all the declared fields under
those keys: no field is dropped or merged through a key collision. -/
theorem wire_keys_pairwise_distinct :
    ∀ s ∈ packageStructs,
      (s.fields.map FieldDecl.wireKey).Nodup ∧
        (typeFields s.fields).map EncField.name = s.fields.map FieldDecl.wireKey := by
  decide

/-- Witness for C15: the keys of `ContainerLogsOptions`. -/
theorem wire_keys_pairwise_distinct_witness :
    (ContainerLogsOptions.decls.map FieldDecl.wireKey).Nodup ∧
      (typeFields ContainerLogsOptions.decls).map EncField.name
        = ContainerLogsOptions.decls.map FieldDecl.wireKey :=
  wire_keys_pairwise_distinct ⟨"ContainerLogsOptions", ContainerLogsOptions.decls⟩ (by decide)

end EngineApi
